import Mathlib

/-!
# ollama-server: a verification development

Shallow embedding of `ollama-server/main.go`, an HTTP gateway that forwards
`POST /generate` and `GET /models` to a local Ollama daemon.

The handlers, the route table and the payload construction are translated
from `main.go`.  The library routines they call (`encoding/json`,
`unicode/utf8`, `unicode/utf16`, `net/http`, `io`, `path` of current Go
releases, and `gorilla/mux` 1.8) are embedded as executable definitions that
follow the sources of those packages; each such definition names the routine
it stands for.  What lies outside the program is a parameter, the `World`:
the daemon and the network answer every attempt of the transport from the
history of earlier attempts, and the parsing and printing of URLs by `net/url`
is taken as given.  A request body is taken as read in full, and writes to
the caller as succeeding.
-/

namespace OllamaServer

/-! ## Go strings -/

/-- A Go `string` or `[]byte`: a sequence of bytes, not necessarily valid UTF-8. -/
abbrev Bytes := List UInt8

/-- The bytes of a source-text literal (Go source files are UTF-8). -/
def utf8 (s : String) : Bytes := s.data.flatMap String.utf8EncodeChar

/-- Equality of results is decidable, so that the embedding can be run. -/
instance instDecidableEqExcept {ε α : Type} [DecidableEq ε] [DecidableEq α] :
    DecidableEq (Except ε α)
  | .ok a, .ok b => if h : a = b then isTrue (by rw [h]) else isFalse (by intro h1; cases h1; exact h rfl)
  | .error a, .error b =>
    if h : a = b then isTrue (by rw [h]) else isFalse (by intro h1; cases h1; exact h rfl)
  | .ok _, .error _ => isFalse (by intro h; cases h)
  | .error _, .ok _ => isFalse (by intro h; cases h)

/-! ## unicode/utf8 -/

/-- Go `utf8.RuneError`, the replacement character U+FFFD. -/
def RuneError : Nat := 0xFFFD

/-- Go `utf8.DecodeRune`: the first rune of `p` and its width in bytes.
An empty input gives `(RuneError, 0)`, an invalid encoding `(RuneError, 1)`.
The lead byte selects the width and the accepted range of the second byte
(the `first` and `acceptRanges` tables of the Go source). -/
def DecodeRune (p : Bytes) : Nat × Nat :=
  match p with
  | [] => (RuneError, 0)
  | p0 :: rest =>
    if p0 < 0x80 then (p0.toNat, 1)
    else if p0 < 0xC2 || 0xF4 < p0 then (RuneError, 1)
    else
      let sz : Nat := if p0 < 0xE0 then 2 else if p0 < 0xF0 then 3 else 4
      let lo : UInt8 := if p0 == 0xE0 then 0xA0 else if p0 == 0xF0 then 0x90 else 0x80
      let hi : UInt8 := if p0 == 0xED then 0x9F else if p0 == 0xF4 then 0x8F else 0xBF
      if p.length < sz then (RuneError, 1)
      else
        match rest with
        | [] => (RuneError, 1)
        | b1 :: rest1 =>
          if b1 < lo || hi < b1 then (RuneError, 1)
          else if sz ≤ 2 then ((p0.toNat % 32) * 64 + b1.toNat % 64, 2)
          else
            match rest1 with
            | [] => (RuneError, 1)
            | b2 :: rest2 =>
              if b2 < 0x80 || 0xBF < b2 then (RuneError, 1)
              else if sz ≤ 3 then
                ((p0.toNat % 16) * 4096 + (b1.toNat % 64) * 64 + b2.toNat % 64, 3)
              else
                match rest2 with
                | [] => (RuneError, 1)
                | b3 :: _ =>
                  if b3 < 0x80 || 0xBF < b3 then (RuneError, 1)
                  else
                    ((p0.toNat % 8) * 262144 + (b1.toNat % 64) * 4096
                      + (b2.toNat % 64) * 64 + b3.toNat % 64, 4)

/-- Go `utf8.EncodeRune` / `utf8.AppendRune`: the UTF-8 encoding of rune `r`;
surrogates and values above U+10FFFF are encoded as `RuneError`. -/
def EncodeRune (r : Nat) : Bytes :=
  if r ≤ 0x7F then [UInt8.ofNat r]
  else if r ≤ 0x7FF then [UInt8.ofNat (0xC0 + r / 64), UInt8.ofNat (0x80 + r % 64)]
  else if 0x10FFFF < r || (0xD800 ≤ r && r ≤ 0xDFFF) then [0xEF, 0xBF, 0xBD]
  else if r ≤ 0xFFFF then
    [UInt8.ofNat (0xE0 + r / 4096), UInt8.ofNat (0x80 + r / 64 % 64), UInt8.ofNat (0x80 + r % 64)]
  else
    [UInt8.ofNat (0xF0 + r / 262144), UInt8.ofNat (0x80 + r / 4096 % 64),
     UInt8.ofNat (0x80 + r / 64 % 64), UInt8.ofNat (0x80 + r % 64)]

/-! ## encoding/json: reading a value -/

/-- A JSON value as `encoding/json` reads it: numbers keep their literal,
strings are unquoted, object members keep their order and duplicates. -/
inductive JSONValue where
  | null
  | bool (b : Bool)
  | number (lit : Bytes)
  | string (s : Bytes)
  | array (elems : List JSONValue)
  | object (members : List (Bytes × JSONValue))

/-- Outcome of scanning one syntactic unit from the front of the input. -/
inductive Scan (α : Type) where
  | ok (a : α) (rest : Bytes)
  | invalid
  | outOfFuel

/-- Go `isSpace` of the JSON scanner: space, tab, carriage return, line feed. -/
def isSpace (c : UInt8) : Bool := c == 0x20 || c == 0x09 || c == 0x0D || c == 0x0A

/-- Drop leading JSON white space. -/
def skipSpace : Bytes → Bytes
  | [] => []
  | c :: rest => if isSpace c then skipSpace rest else c :: rest

/-- Value of one hexadecimal digit, either case. -/
def hexVal (c : UInt8) : Option Nat :=
  if 0x30 ≤ c && c ≤ 0x39 then some (c.toNat - 0x30)
  else if 0x61 ≤ c && c ≤ 0x66 then some (c.toNat - 0x61 + 10)
  else if 0x41 ≤ c && c ≤ 0x46 then some (c.toNat - 0x41 + 10)
  else none

/-- Go `getu4`: the rune of the four hexadecimal digits of a `\u` escape. -/
def getu4 (a b c d : UInt8) : Option Nat :=
  match hexVal a, hexVal b, hexVal c, hexVal d with
  | some x, some y, some z, some w => some (((x * 16 + y) * 16 + z) * 16 + w)
  | _, _, _, _ => none

/-- Go `utf16.IsSurrogate`. -/
def IsSurrogate (r : Nat) : Bool := 0xD800 ≤ r && r < 0xE000

/-- Go `utf16.DecodeRune`: the rune of a surrogate pair, `RuneError` when the
pair is not a high surrogate followed by a low one. -/
def utf16DecodeRune (r1 r2 : Nat) : Nat :=
  if 0xD800 ≤ r1 && r1 < 0xDC00 && 0xDC00 ≤ r2 && r2 < 0xE000 then
    (r1 - 0xD800) * 1024 + (r2 - 0xDC00) + 0x10000
  else RuneError

/-- The byte a single-character escape stands for (`\"` `\\` `\/` `\b` `\f`
`\n` `\r` `\t`); `none` for any other character after a backslash. -/
def unescape (e : UInt8) : Option UInt8 :=
  if e == 0x22 then some 0x22
  else if e == 0x5C then some 0x5C
  else if e == 0x2F then some 0x2F
  else if e == 0x62 then some 0x08
  else if e == 0x66 then some 0x0C
  else if e == 0x6E then some 0x0A
  else if e == 0x72 then some 0x0D
  else if e == 0x74 then some 0x09
  else none

/-- The look-ahead of `unquoteBytes` after a surrogate escape `rr`: when the
next six bytes are a `\u` escape completing a valid pair, the rune of the pair. -/
def pairAhead (rr : Nat) : Bytes → Option Nat
  | b :: u :: k1 :: k2 :: k3 :: k4 :: _ =>
    if b == 0x5C && u == 0x75 then
      match getu4 k1 k2 k3 k4 with
      | some rr1 =>
        if utf16DecodeRune rr rr1 != RuneError then some (utf16DecodeRune rr rr1) else none
      | none => none
    else none
  | _ => none

/-- Prepend unquoted bytes to the result of scanning the rest of a string. -/
def consOut (out : Bytes) : Option (Bytes × Bytes) → Option (Bytes × Bytes)
  | some (s, rest) => some (out ++ s, rest)
  | none => none

/-- One step of `unquoteBytes` at a position inside a string literal that is
not the closing quote: the bytes it appends and the number of input bytes it
consumes.  A single-character escape, a `\u` escape (a surrogate consumes its
partner when the pair is valid, and becomes U+FFFD otherwise), an ASCII byte,
or one rune, where an invalid UTF-8 byte becomes U+FFFD.  A control character
or an unknown escape is the syntax error of the scanner states
`stateInString`, `stateInStringEsc`, `stateInStringEscU…`. -/
def unquoteStep : Bytes → Option (Bytes × Nat)
  | [] => none
  | c :: rest =>
    if c == 0x5C then
      match rest with
      | [] => none
      | e :: rest1 =>
        if e == 0x75 then
          match rest1 with
          | h1 :: h2 :: h3 :: h4 :: rest2 =>
            match getu4 h1 h2 h3 h4 with
            | none => none
            | some rr =>
              if IsSurrogate rr then
                match pairAhead rr rest2 with
                | some dec => some (EncodeRune dec, 12)
                | none => some (EncodeRune RuneError, 6)
              else some (EncodeRune rr, 6)
          | _ => none
        else
          match unescape e with
          | some b => some ([b], 2)
          | none => none
    else if c < 0x20 then none
    else if c < 0x80 then some ([c], 1)
    else some (EncodeRune (DecodeRune (c :: rest)).1, (DecodeRune (c :: rest)).2)

/-- The loop of `unquoteBytes` over a string literal: `skip` input bytes are
still to be passed over from the last step.  Returns the unquoted bytes and
the input after the closing quote. -/
def scanStringFrom : Nat → Bytes → Option (Bytes × Bytes)
  | _, [] => none
  | skip + 1, _ :: rest => scanStringFrom skip rest
  | 0, c :: rest =>
    if c == 0x22 then some ([], rest)
    else
      match unquoteStep (c :: rest) with
      | none => none
      | some (out, width) => consOut out (scanStringFrom (width - 1) rest)

/-- A string literal after its opening quote: the unquoted bytes and the
input after the closing quote, `none` on a syntax error or a missing quote. -/
def scanString (input : Bytes) : Option (Bytes × Bytes) := scanStringFrom 0 input

/-- ASCII decimal digit. -/
def isDigit (c : UInt8) : Bool := 0x30 ≤ c && c ≤ 0x39

/-- The longest run of digits at the front of the input, and what follows. -/
def takeDigits : Bytes → Bytes × Bytes
  | [] => ([], [])
  | c :: rest =>
    if isDigit c then ((c :: (takeDigits rest).1), (takeDigits rest).2) else ([], c :: rest)

/-- Optional exponent of a number (scanner states `stateE`, `stateESign`,
`stateE0`); `lit` is the literal read so far. -/
def scanExp (lit : Bytes) : Bytes → Option (Bytes × Bytes)
  | [] => some (lit, [])
  | e :: rest =>
    if e == 0x65 || e == 0x45 then
      match rest with
      | [] => none
      | s :: rest1 =>
        if s == 0x2B || s == 0x2D then
          match takeDigits rest1 with
          | ([], _) => none
          | (ds, r) => some (lit ++ e :: s :: ds, r)
        else
          match takeDigits (s :: rest1) with
          | ([], _) => none
          | (ds, r) => some (lit ++ e :: ds, r)
    else some (lit, e :: rest)

/-- Optional fraction of a number (scanner states `stateDot`, `stateDot0`). -/
def scanFrac (lit : Bytes) : Bytes → Option (Bytes × Bytes)
  | [] => some (lit, [])
  | c :: rest =>
    if c == 0x2E then
      match takeDigits rest with
      | ([], _) => none
      | (ds, r) => scanExp (lit ++ c :: ds) r
    else scanExp lit (c :: rest)

/-- Integer part of a number (scanner states `stateNeg`, `state0`, `state1`):
a single `0`, or a non-zero digit followed by digits. -/
def scanInt (sign : Bytes) : Bytes → Option (Bytes × Bytes)
  | [] => none
  | c :: rest =>
    if c == 0x30 then scanFrac (sign ++ [c]) rest
    else if 0x31 ≤ c && c ≤ 0x39 then
      scanFrac (sign ++ c :: (takeDigits rest).1) (takeDigits rest).2
    else none

/-- A number literal: the literal and the input after it.  The literal ends at
the first byte that cannot continue it. -/
def scanNumber : Bytes → Option (Bytes × Bytes)
  | [] => none
  | c :: rest => if c == 0x2D then scanInt [c] rest else scanInt [] (c :: rest)

/-- The input after the keyword `word`, when the input starts with it. -/
def scanLiteral : Bytes → Bytes → Option Bytes
  | [], input => some input
  | _ :: _, [] => none
  | w :: word, c :: input => if w == c then scanLiteral word input else none

/-- Go `maxNestingDepth` of the JSON scanner: opening a container inside
10000 open ones is an error. -/
def maxNestingDepth : Nat := 10000

mutual
/-- One JSON value from the front of the input, after optional white space:
the scanner driven by `Decoder.readValue`.  `depth` counts the containers
already open; `fuel` bounds the number of nested calls. -/
def scanValue : Nat → Nat → Bytes → Scan JSONValue
  | 0, _, _ => .outOfFuel
  | fuel + 1, depth, input =>
    match skipSpace input with
    | [] => .invalid
    | c :: rest =>
      if c == 0x7B then
        if maxNestingDepth ≤ depth then .invalid
        else
          match skipSpace rest with
          | [] => .invalid
          | c1 :: rest1 =>
            if c1 == 0x7D then .ok (.object []) rest1
            else scanMembers fuel (depth + 1) (c1 :: rest1) []
      else if c == 0x5B then
        if maxNestingDepth ≤ depth then .invalid
        else
          match skipSpace rest with
          | [] => .invalid
          | c1 :: rest1 =>
            if c1 == 0x5D then .ok (.array []) rest1
            else scanElems fuel (depth + 1) (c1 :: rest1) []
      else if c == 0x22 then
        match scanString rest with
        | some (s, rest1) => .ok (.string s) rest1
        | none => .invalid
      else if c == 0x2D || isDigit c then
        match scanNumber (c :: rest) with
        | some (lit, rest1) => .ok (.number lit) rest1
        | none => .invalid
      else if c == 0x74 then
        match scanLiteral (utf8 "rue") rest with
        | some rest1 => .ok (.bool true) rest1
        | none => .invalid
      else if c == 0x66 then
        match scanLiteral (utf8 "alse") rest with
        | some rest1 => .ok (.bool false) rest1
        | none => .invalid
      else if c == 0x6E then
        match scanLiteral (utf8 "ull") rest with
        | some rest1 => .ok .null rest1
        | none => .invalid
      else .invalid
/-- The members of an object after its opening brace, from a key up to the
closing brace; `acc` holds the members read so far. -/
def scanMembers : Nat → Nat → Bytes → List (Bytes × JSONValue) → Scan JSONValue
  | 0, _, _, _ => .outOfFuel
  | fuel + 1, depth, input, acc =>
    match skipSpace input with
    | [] => .invalid
    | q :: rest =>
      if q != 0x22 then .invalid
      else
        match scanString rest with
        | none => .invalid
        | some (key, rest1) =>
          match skipSpace rest1 with
          | [] => .invalid
          | col :: rest2 =>
            if col != 0x3A then .invalid
            else
              match scanValue fuel depth rest2 with
              | .invalid => .invalid
              | .outOfFuel => .outOfFuel
              | .ok v rest3 =>
                match skipSpace rest3 with
                | [] => .invalid
                | d :: rest4 =>
                  if d == 0x2C then scanMembers fuel depth rest4 (acc ++ [(key, v)])
                  else if d == 0x7D then .ok (.object (acc ++ [(key, v)])) rest4
                  else .invalid
/-- The elements of an array after its opening bracket, from a value up to
the closing bracket; `acc` holds the elements read so far. -/
def scanElems : Nat → Nat → Bytes → List JSONValue → Scan JSONValue
  | 0, _, _, _ => .outOfFuel
  | fuel + 1, depth, input, acc =>
    match scanValue fuel depth input with
    | .invalid => .invalid
    | .outOfFuel => .outOfFuel
    | .ok v rest =>
      match skipSpace rest with
      | [] => .invalid
      | d :: rest1 =>
        if d == 0x2C then scanElems fuel depth rest1 (acc ++ [v])
        else if d == 0x5D then .ok (.array (acc ++ [v])) rest1
        else .invalid
end

/-! ## encoding/json: storing a value into `GenerateRequest` -/

/-- The `type GenerateRequest struct` of `main.go`: two string fields, tagged
`json:"model"` and `json:"prompt"`. -/
structure GenerateRequest where
  Model : Bytes
  Prompt : Bytes
  deriving DecidableEq, Repr

/-- Why `Decode` returned a non-nil error: the input is not a JSON value
(`SyntaxError`, `io.EOF`, `io.ErrUnexpectedEOF`), or the value does not fit
the Go type (`UnmarshalTypeError`). -/
inductive DecodeError where
  | malformed
  | mismatch
  deriving DecidableEq, Repr

/-- The fields of `GenerateRequest`. -/
inductive Field where
  | Model
  | Prompt
  deriving DecidableEq, Repr

/-- Go `foldName` on the ASCII range: lower-case letters become upper-case.
Other bytes are kept; the field names of `GenerateRequest` have no letter
whose fold set reaches outside ASCII, so a key with a non-ASCII byte matches
neither field under either folding. -/
def foldName (key : Bytes) : Bytes :=
  key.map fun c => if 0x61 ≤ c && c ≤ 0x7A then c - 0x20 else c

/-- The field an object key addresses: the exact tag name first, then the
case-folded name (`byExactName`, `byFoldedName` in `decodeState.object`). -/
def findField (key : Bytes) : Option Field :=
  if key == utf8 "model" then some .Model
  else if key == utf8 "prompt" then some .Prompt
  else if foldName key == utf8 "MODEL" then some .Model
  else if foldName key == utf8 "PROMPT" then some .Prompt
  else none

/-- Store one object member (`decodeState.object` with `literalStore`): a key
that addresses no field is skipped, a string sets its field, `null` leaves the
field unchanged, any other value records a type error and decoding goes on. -/
def storeMember (st : GenerateRequest × Bool) (kv : Bytes × JSONValue) : GenerateRequest × Bool :=
  match findField kv.1 with
  | none => st
  | some f =>
    match kv.2 with
    | .string s =>
      match f with
      | .Model => ({ st.1 with Model := s }, st.2)
      | .Prompt => ({ st.1 with Prompt := s }, st.2)
    | .null => st
    | _ => (st.1, true)

/-- Go `decodeState.unmarshal` into a zero `GenerateRequest`: `null` stores
nothing, an object stores its members in order, any other value is a type
error.  A recorded type error is returned once the value has been read. -/
def unmarshal (v : JSONValue) : Except DecodeError GenerateRequest :=
  match v with
  | .null => .ok ⟨[], []⟩
  | .object members =>
    let st := members.foldl storeMember (⟨[], []⟩, false)
    if st.2 then .error .mismatch else .ok st.1
  | _ => .error .mismatch

/-- Go `json.NewDecoder(r.Body).Decode(&req)` on a body that is read in full:
scan the first JSON value (white space before it is skipped, whatever follows
it is left unread), then store it.  A body with no complete value is a syntax
error.  The fuel is more than the scan of the body can use
(`scanValue_fuel`). -/
def Decode (body : Bytes) : Except DecodeError GenerateRequest :=
  match scanValue (2 * body.length + 1) 0 body with
  | .ok v _ => unmarshal v
  | .invalid => .error .malformed
  | .outOfFuel => .error .malformed

/-! ## encoding/json: writing a value -/

/-- A dynamic value held in an `interface{}` element of the payload map, by
kind.  Channels and functions (given by the name of their type) are the kinds
`json.Marshal` rejects. -/
inductive GoValue where
  | nil
  | bool (b : Bool)
  | int (i : Int)
  | string (s : Bytes)
  | chan (typeName : Bytes)
  | func (typeName : Bytes)

/-- A Go `map[string]interface{}`: keys with their values, keys distinct. -/
abbrev GoMap := List (Bytes × GoValue)

/-- Go `json.UnsupportedTypeError`, with the name of the rejected type. -/
structure MarshalError where
  typeName : Bytes
  deriving DecidableEq, Repr

/-- Go `(*UnsupportedTypeError).Error`. -/
def MarshalError.Error (e : MarshalError) : Bytes := utf8 "json: unsupported type: " ++ e.typeName

/-- Go `htmlSafeSet`: the ASCII bytes written unescaped inside a string when
HTML escaping is on, as it is for `json.Marshal`. -/
def htmlSafe (b : UInt8) : Bool :=
  0x20 ≤ b && b < 0x80 && b != 0x22 && b != 0x5C && b != 0x3C && b != 0x3E && b != 0x26

/-- Go `hex`: lower-case hexadecimal digit of a value below 16. -/
def hexDigit (n : UInt8) : UInt8 := if n < 10 then 0x30 + n else 0x61 + (n - 10)

/-- The escape `appendString` writes for an ASCII byte outside `htmlSafeSet`. -/
def escapeByte (b : UInt8) : Bytes :=
  if b == 0x5C || b == 0x22 then [0x5C, b]
  else if b == 0x08 then [0x5C, 0x62]
  else if b == 0x0C then [0x5C, 0x66]
  else if b == 0x0A then [0x5C, 0x6E]
  else if b == 0x0D then [0x5C, 0x72]
  else if b == 0x09 then [0x5C, 0x74]
  else [0x5C, 0x75, 0x30, 0x30, hexDigit (b / 16), hexDigit (b % 16)]

/-- One step of the loop of Go `appendString` at a non-empty position: the
bytes it writes and the number of input bytes it consumes.  ASCII is copied
or escaped, an invalid UTF-8 byte is written as U+FFFD (the encoder of
releases that do not build on `encoding/json/v2` writes the escape of U+FFFD
there), U+2028 and U+2029 are escaped, any other rune is copied. -/
def appendStep : Bytes → Bytes × Nat
  | [] => ([], 0)
  | b :: rest =>
    if b < 0x80 then (if htmlSafe b then [b] else escapeByte b, 1)
    else
      match DecodeRune (b :: rest) with
      | (c, size) =>
        if c == RuneError && size == 1 then (EncodeRune RuneError, 1)
        else if c == 0x2028 then (utf8 "\\u2028", size)
        else if c == 0x2029 then (utf8 "\\u2029", size)
        else ((b :: rest).take size, size)

/-- The loop of Go `appendString`: the content of a string between its
quotes; `skip` input bytes are still to be passed over from the last step. -/
def appendRunesFrom : Nat → Bytes → Bytes
  | _, [] => []
  | skip + 1, _ :: rest => appendRunesFrom skip rest
  | 0, b :: rest => (appendStep (b :: rest)).1 ++ appendRunesFrom ((appendStep (b :: rest)).2 - 1) rest

/-- The content of a quoted string for the whole of `s`. -/
def appendRunes (s : Bytes) : Bytes := appendRunesFrom 0 s

/-- Go `appendString` with `escapeHTML = true`: a quoted JSON string. -/
def appendString (s : Bytes) : Bytes := 0x22 :: appendRunes s ++ [0x22]

/-- Go `strings.Compare(a, b) <= 0`: byte-wise lexicographic order. -/
def leBytes : Bytes → Bytes → Bool
  | [], _ => true
  | _ :: _, [] => false
  | a :: as, b :: bs => if a < b then true else if b < a then false else leBytes as bs

/-- Insert an entry into a list of entries sorted by key. -/
def insertByKey (e : Bytes × GoValue) : GoMap → GoMap
  | [] => [e]
  | x :: xs => if leBytes e.1 x.1 then e :: x :: xs else x :: insertByKey e xs

/-- The entries of a map in the order `mapEncoder` writes them: sorted by key. -/
def sortByKey (m : GoMap) : GoMap := m.foldr insertByKey []

/-- The encoder chosen by the dynamic type of an interface value
(`newTypeEncoder`): channels and functions have `unsupportedTypeEncoder`. -/
def encodeValue : GoValue → Except MarshalError Bytes
  | .nil => .ok (utf8 "null")
  | .bool true => .ok (utf8 "true")
  | .bool false => .ok (utf8 "false")
  | .int i => .ok (utf8 (toString i))
  | .string s => .ok (appendString s)
  | .chan t => .error ⟨t⟩
  | .func t => .error ⟨t⟩

/-- The members of an object, comma-separated, in the given order; the first
value that cannot be encoded aborts the encoding. -/
def encodeMembers : GoMap → Except MarshalError Bytes
  | [] => .ok []
  | (k, v) :: rest =>
    match encodeValue v with
    | .error e => .error e
    | .ok ev =>
      match rest, encodeMembers rest with
      | _, .error e => .error e
      | [], .ok _ => .ok (appendString k ++ 0x3A :: ev)
      | _ :: _, .ok er => .ok (appendString k ++ 0x3A :: ev ++ 0x2C :: er)

/-- Go `json.Marshal` of a `map[string]interface{}` (`mapEncoder.encode`):
an object whose members are the entries sorted by key. -/
def Marshal (m : GoMap) : Except MarshalError Bytes :=
  match encodeMembers (sortByKey m) with
  | .error e => .error e
  | .ok members => .ok (0x7B :: members ++ [0x7D])

/-! ## net/http: the response writer -/

/-- Go `http.Header` restricted to single-valued keys in canonical form. -/
abbrev Header := List (Bytes × Bytes)

/-- Go `Header.Del`. -/
def Header.Del (h : Header) (key : Bytes) : Header := h.filter fun kv => kv.1 != key

/-- Go `Header.Set`: the key gets the single value, replacing any earlier one. -/
def Header.Set (h : Header) (key value : Bytes) : Header := Header.Del h key ++ [(key, value)]

/-- The state of an `http.ResponseWriter`: the header map the handler edits,
and what has gone to the caller: whether the status line was written, the
status, the headers sent with it, and the body bytes in order. -/
structure ResponseWriter where
  header : Header
  wroteHeader : Bool
  status : Nat
  sent : Header
  body : Bytes
  deriving DecidableEq, Repr

/-- The writer a handler receives for a new request. -/
def ResponseWriter.fresh : ResponseWriter := ⟨[], false, 0, [], []⟩

/-- Go `w.Header().Set(key, value)`. -/
def ResponseWriter.SetHeader (w : ResponseWriter) (key value : Bytes) : ResponseWriter :=
  { w with header := Header.Set w.header key value }

/-- Go `w.WriteHeader(code)`: the first call sends the status with the
headers set so far; a later call is superfluous and changes nothing. -/
def ResponseWriter.WriteHeader (w : ResponseWriter) (code : Nat) : ResponseWriter :=
  if w.wroteHeader then w
  else { w with wroteHeader := true, status := code, sent := w.header }

/-- Go `w.Write(data)`: sends status 200 first when no status was written.
Sniffing a content type for the first write is left out: every path of this
server sets `Content-Type` before it writes, or writes nothing. -/
def ResponseWriter.Write (w : ResponseWriter) (data : Bytes) : ResponseWriter :=
  let w1 := if w.wroteHeader then w else w.WriteHeader 200
  { w1 with body := w1.body ++ data }

/-- Go `http.StatusOK`. -/
def StatusOK : Nat := 200

/-- Go `http.StatusMovedPermanently`. -/
def StatusMovedPermanently : Nat := 301

/-- Go `http.StatusBadRequest`. -/
def StatusBadRequest : Nat := 400

/-- Go `http.StatusNotFound`. -/
def StatusNotFound : Nat := 404

/-- Go `http.StatusMethodNotAllowed`. -/
def StatusMethodNotAllowed : Nat := 405

/-- Go `http.StatusInternalServerError`. -/
def StatusInternalServerError : Nat := 500

/-- Go `http.Error(w, error, code)`: a plain-text reply, the message followed
by a newline (`fmt.Fprintln`). -/
def Error (w : ResponseWriter) (error : Bytes) (code : Nat) : ResponseWriter :=
  let w1 := { w with header := Header.Del w.header (utf8 "Content-Length") }
  let w2 := w1.SetHeader (utf8 "Content-Type") (utf8 "text/plain; charset=utf-8")
  let w3 := w2.SetHeader (utf8 "X-Content-Type-Options") (utf8 "nosniff")
  let w4 := w3.WriteHeader code
  w4.Write (error ++ utf8 "\n")

/-! ## net/http: the client, and the upstream daemon -/

/-- Go `Header.Get`: the value of a key, empty when the key is absent. -/
def Header.Get (h : Header) (key : Bytes) : Bytes :=
  match h.find? fun kv => kv.1 == key with
  | some kv => kv.2
  | none => []

/-- One attempt of the transport to exchange a request with the upstream:
the method, the URL and, for a request that carries a body, its content type
and the body.  Other headers are not recorded. -/
structure Attempt where
  method : Bytes
  url : Bytes
  body : Option (Bytes × Bytes)
  deriving DecidableEq, Repr

/-- An `*http.Response` of the upstream: its status code, its headers, and
its body as the chunks successive reads deliver, up to end of stream or a read
error. -/
structure Response where
  StatusCode : Nat
  Header : Header
  Body : List Bytes
  deriving DecidableEq, Repr

/-- What one attempt comes to at the transport (`persistConn.roundTrip`): a
response; an error the transport does not retry; on a connection taken from
the idle pool, a failure before any byte of the request was written
(`nothingWrittenError`); or, on such a connection, the server closing it
before a byte of the response arrived (`transportReadFromServerError`,
`errServerClosedIdle`).  Each error is given by its text. -/
inductive Outcome where
  | response (resp : Response)
  | failed (err : Bytes)
  | nothingWritten (err : Bytes)
  | serverClosed (err : Bytes)
  deriving DecidableEq, Repr

/-- The `*url.Error` a client call returns, by its cause: the round trip of
the request to `url` failed with `err`; the `Location` header `loc` of the
response to the request to `url` did not parse, with `err`; or the redirect
policy stopped the chain at the `Location` header `loc`.  `op` is `Get` or
`Post`. -/
inductive ClientError where
  | send (op url err : Bytes)
  | location (op url loc err : Bytes)
  | redirects (op loc : Bytes)
  deriving DecidableEq, Repr

/-- What lies outside the program.  The daemon and the network: `answer` is
the outcome of an attempt, given the attempts made before it; `idle` is the
number of idle connections the pool of `http.DefaultTransport` holds for the
host of a request when its round trip starts.  The package `net/url`, which
is not embedded: `resolve base loc` is `String()` of the URL that the
reference `loc` denotes relative to the URL `base` (`URL.Parse`), or the text
of the parse error; `errorText` is `Error()` of a `*url.Error`. -/
structure World where
  answer : List Attempt → Attempt → Outcome
  idle : List Attempt → Attempt → Nat
  resolve : Bytes → Bytes → Except Bytes Bytes
  errorText : ClientError → Bytes

/-- Go `(*Request).isReplayable` for a request without a body or with a body
that can be read again, as all requests of this client are: the method is
idempotent (no request here carries an `Idempotency-Key` header). -/
def isReplayable (req : Attempt) : Bool :=
  req.method == utf8 "GET" || req.method == utf8 "HEAD" || req.method == utf8 "OPTIONS"
    || req.method == utf8 "TRACE"

/-- The loop of `(*Transport).roundTrip` over HTTP/1 connections, with `idle`
pooled connections left to try before a new one is dialled.  Every attempt is
logged.  A failure on a new connection is final.  On a pooled connection
`shouldRetryRequest` retries an attempt of which nothing was written (the body
of a request of this client can be read again), and retries a replayable
request the server closed the connection on. -/
def roundTripFrom (w : World) (req : Attempt) :
    Nat → List Attempt → Except Bytes Response × List Attempt
  | 0, log =>
    match w.answer log req with
    | .response resp => (.ok resp, log ++ [req])
    | .failed err => (.error err, log ++ [req])
    | .nothingWritten err => (.error err, log ++ [req])
    | .serverClosed err => (.error err, log ++ [req])
  | idle + 1, log =>
    match w.answer log req with
    | .response resp => (.ok resp, log ++ [req])
    | .failed err => (.error err, log ++ [req])
    | .nothingWritten _ => roundTripFrom w req idle (log ++ [req])
    | .serverClosed err =>
      if isReplayable req then roundTripFrom w req idle (log ++ [req])
      else (.error err, log ++ [req])

/-- Go `(*Transport).RoundTrip` through `http.DefaultTransport`, which a
zero-value `http.Client` uses. -/
def RoundTrip (w : World) (log : List Attempt) (req : Attempt) :
    Except Bytes Response × List Attempt :=
  roundTripFrom w req (w.idle log req) log

/-- Go `redirectBehavior` for a request whose body can be sent again: the
method of the next request and whether it carries the body, or `none` when
the status code is not one the client follows.  Codes 301, 302 and 303 turn
every method but GET and HEAD into GET and drop the body; 307 and 308 keep
both. -/
def redirectBehavior (reqMethod : Bytes) (code : Nat) : Option (Bytes × Bool) :=
  if code == 301 || code == 302 || code == 303 then
    some (if reqMethod != utf8 "GET" && reqMethod != utf8 "HEAD" then utf8 "GET" else reqMethod,
      false)
  else if code == 307 || code == 308 then some (reqMethod, true)
  else none

/-- How one round of the loop of `(*Client).do` ends: with the result of the
call, or with the next request to send (and the `Location` it came from). -/
inductive Hop where
  | done (result : Except Bytes Response)
  | next (req : Attempt) (includeBody : Bool) (loc : Bytes)

/-- One round of the loop of `(*Client).do`: send the request; return a
transport error, a response that is not a redirect, or a redirect without a
`Location`; otherwise resolve the `Location` and build the next request.
`body` is the body of the first request, `includeBody` whether no redirect so
far has dropped it. -/
def hop (w : World) (op : Bytes) (body : Option (Bytes × Bytes)) (req : Attempt)
    (includeBody : Bool) (log : List Attempt) : Hop × List Attempt :=
  match RoundTrip w log req with
  | (.error err, log1) => (.done (.error (w.errorText (.send op req.url err))), log1)
  | (.ok resp, log1) =>
    match redirectBehavior req.method resp.StatusCode with
    | none => (.done (.ok resp), log1)
    | some (method, includeBodyOnHop) =>
      if resp.Header.Get (utf8 "Location") == [] then (.done (.ok resp), log1)
      else
        match w.resolve req.url (resp.Header.Get (utf8 "Location")) with
        | .error err =>
          (.done (.error (w.errorText
            (.location op req.url (resp.Header.Get (utf8 "Location")) err))), log1)
        | .ok u =>
          (.next ⟨method, u, if includeBody && includeBodyOnHop then body else none⟩
            (includeBody && includeBodyOnHop) (resp.Header.Get (utf8 "Location")), log1)

/-- The loop of `(*Client).do` with the default redirect policy, which lets
`hops` further requests follow the current one and then stops the chain with
the error `stopped after 10 redirects`. -/
def followFrom (w : World) (op : Bytes) (body : Option (Bytes × Bytes)) :
    Nat → Attempt → Bool → List Attempt → Except Bytes Response × List Attempt
  | 0, req, includeBody, log =>
    match hop w op body req includeBody log with
    | (.done result, log1) => (result, log1)
    | (.next _ _ loc, log1) => (.error (w.errorText (.redirects op loc)), log1)
  | hops + 1, req, includeBody, log =>
    match hop w op body req includeBody log with
    | (.done result, log1) => (result, log1)
    | (.next req1 includeBody1 _, log1) => followFrom w op body hops req1 includeBody1 log1

/-- Go `client.Post(url, contentType, body)` on a zero-value `http.Client`:
one call of the client, which sends the POST and follows redirects, ten
requests at most.  Returns the response or the text of the error, and the
attempts made. -/
def Post (w : World) (log : List Attempt) (url contentType body : Bytes) :
    Except Bytes Response × List Attempt :=
  followFrom w (utf8 "Post") (some (contentType, body)) 9
    ⟨utf8 "POST", url, some (contentType, body)⟩ true log

/-- Go `client.Get(url)` on a zero-value `http.Client`: one call of the
client, which sends the GET without a body and follows redirects. -/
def Get (w : World) (log : List Attempt) (url : Bytes) :
    Except Bytes Response × List Attempt :=
  followFrom w (utf8 "Get") none 9 ⟨utf8 "GET", url, none⟩ true log

/-- Go `io.Copy(w, resp.Body)`: every chunk read is written, in order; the
error `io.Copy` returns is dropped by both handlers. -/
def Copy (w : ResponseWriter) (body : List Bytes) : ResponseWriter :=
  body.foldl ResponseWriter.Write w

/-! ## main.go: the handlers -/

/-- An inbound `*http.Request` in origin form: the method, the fields `Path`,
`RawQuery` and `ForceQuery` of its URL, and the body read in full. -/
structure Request where
  Method : Bytes
  Path : Bytes
  RawQuery : Bytes
  ForceQuery : Bool
  Body : Bytes
  deriving DecidableEq, Repr

/-- A handler run: from the attempts made so far, the writer and the request,
to the writer and the attempts after it returns. -/
abbrev HandlerFunc :=
  World → List Attempt → ResponseWriter → Request → ResponseWriter × List Attempt

/-- The payload map built by `handleGenerate`:
`map[string]interface{}{"model": req.Model, "prompt": req.Prompt}`. -/
def ollamaReq (req : GenerateRequest) : GoMap :=
  [(utf8 "model", .string req.Model), (utf8 "prompt", .string req.Prompt)]

/-- The method `func (s *OllamaServer) handleGenerate` of `main.go`. -/
def handleGenerate : HandlerFunc := fun world log w r =>
  match Decode r.Body with
  | .error _ => (Error w (utf8 "Invalid request body") StatusBadRequest, log)
  | .ok req =>
    match Marshal (ollamaReq req) with
    | .error err =>
      (Error w (utf8 "Failed to marshal request: " ++ err.Error) StatusInternalServerError, log)
    | .ok reqBody =>
      match Post world log (utf8 "http://localhost:11434/api/generate")
          (utf8 "application/json") reqBody with
      | (.error err, log1) =>
        (Error w (utf8 "Failed to call Ollama: " ++ err) StatusInternalServerError, log1)
      | (.ok resp, log1) =>
        let w1 := w.SetHeader (utf8 "Content-Type") (utf8 "application/json")
        let w2 := w1.WriteHeader StatusOK
        (Copy w2 resp.Body, log1)

/-- The method `func (s *OllamaServer) handleListModels` of `main.go`. -/
def handleListModels : HandlerFunc := fun world log w _r =>
  match Get world log (utf8 "http://localhost:11434/api/tags") with
  | (.error err, log1) =>
    (Error w (utf8 "Failed to call Ollama: " ++ err) StatusInternalServerError, log1)
  | (.ok resp, log1) =>
    let w1 := w.SetHeader (utf8 "Content-Type") (utf8 "application/json")
    let w2 := w1.WriteHeader StatusOK
    (Copy w2 resp.Body, log1)

/-! ## path and gorilla/mux: dispatch -/

/-- The elements of a path between slashes; `cur` is the element being read. -/
def splitPath (cur : Bytes) : Bytes → List Bytes
  | [] => [cur]
  | c :: rest => if c == 0x2F then cur :: splitPath [] rest else splitPath (cur ++ [c]) rest

/-- One round of the loop of Go `path.Clean` on a rooted path: `out` holds the
elements written so far, last first.  Empty and `.` elements are dropped,
`..` removes the last element written if there is one, any other element is
written. -/
def cleanStep (out : List Bytes) (elem : Bytes) : List Bytes :=
  if elem == [] then out
  else if elem == utf8 "." then out
  else if elem == utf8 ".." then out.tail
  else elem :: out

/-- The path written by `path.Clean` for the elements `out` (last first) of a
rooted path: a slash before every element, a lone slash when there is none. -/
def joinRooted (out : List Bytes) : Bytes :=
  if out == [] then utf8 "/" else (out.reverse.map fun e => 0x2F :: e).flatten

/-- Go `path.Clean` on a path that begins with a slash. -/
def Clean (p : Bytes) : Bytes := joinRooted ((splitPath [] p).foldl cleanStep [])

/-- The function `cleanPath` of gorilla/mux: an empty path is the root, a
path gets a leading slash, is cleaned, and keeps a trailing slash. -/
def cleanPath (p : Bytes) : Bytes :=
  if p == [] then utf8 "/"
  else
    let p1 := if p.head? != some 0x2F then 0x2F :: p else p
    let np := Clean p1
    if p1.getLast? == some 0x2F && np != utf8 "/" then np ++ [0x2F] else np

/-- A matcher of a route: the path template (here without variables, so the
anchored regular expression matches the template itself only), or the list of
allowed methods. -/
inductive Matcher where
  | path (tpl : Bytes)
  | methods (ms : List Bytes)

/-- Go `matcher.Match(req, match)`. -/
def Matcher.Match (m : Matcher) (r : Request) : Bool :=
  match m with
  | .path tpl => r.Path == tpl
  | .methods ms => ms.contains r.Method

/-- A `mux.Route`: its matchers in the order they were added, and its handler. -/
structure Route where
  matchers : List Matcher
  handler : Option HandlerFunc

/-- The values of `RouteMatch.MatchErr`. -/
inductive MatchErr where
  | none
  | methodMismatch
  | notFound
  deriving DecidableEq, Repr

/-- Go `mux.RouteMatch`: the handler found and the match error. -/
structure RouteMatch where
  Handler : Option HandlerFunc
  MatchErr : MatchErr

/-- The loop over the matchers in `Route.Match`: `some e` when every matcher
was tried, with `e` the method mismatch if there was one; `none` when a
matcher other than the method matcher failed. -/
def matchAll (r : Request) : List Matcher → Bool → Option Bool
  | [], mismatch => some mismatch
  | m :: ms, mismatch =>
    if m.Match r then matchAll r ms mismatch
    else
      match m with
      | .methods _ => matchAll r ms true
      | .path _ => none

/-- Go `(*Route).Match`: whether the route matches, and the updated match. -/
def Route.Match (rt : Route) (r : Request) (m : RouteMatch) : Bool × RouteMatch :=
  match matchAll r rt.matchers false with
  | none => (false, if m.MatchErr == .notFound then { m with MatchErr := .none } else m)
  | some true => (false, { m with MatchErr := .methodMismatch })
  | some false =>
    let m1 : RouteMatch :=
      if m.MatchErr == .methodMismatch && rt.handler.isSome then ⟨rt.handler, .none⟩ else m
    (true, if m1.Handler.isNone then { m1 with Handler := rt.handler } else m1)

/-- The loop over the routes in `(*Router).Match`: the first route that
matches ends it. -/
def matchRoutes (r : Request) : List Route → RouteMatch → Bool × RouteMatch
  | [], m => (false, m)
  | rt :: rts, m =>
    match rt.Match r m with
    | (true, m1) => (true, m1)
    | (false, m1) => matchRoutes r rts m1

/-- Go `(*Router).Match` for a router without middleware, without a custom
`MethodNotAllowedHandler` and without a custom `NotFoundHandler`. -/
def Router.Match (routes : List Route) (r : Request) : Bool × RouteMatch :=
  match matchRoutes r routes ⟨none, .none⟩ with
  | (true, m) => (true, m)
  | (false, m) =>
    if m.MatchErr == .methodMismatch then (false, m) else (false, { m with MatchErr := .notFound })

/-- Go `router.HandleFunc(path, f).Methods(methods...)`: a route with a path
matcher, then a method matcher. -/
def HandleFunc (path : Bytes) (f : HandlerFunc) (methods : List Bytes) : Route :=
  ⟨[.path path, .methods methods], some f⟩

/-- The route table `setupRoutes` of `main.go` builds on the empty router of
`NewOllamaServer`. -/
def setupRoutes : List Route :=
  [HandleFunc (utf8 "/generate") handleGenerate [utf8 "POST"],
   HandleFunc (utf8 "/models") handleListModels [utf8 "GET"]]

/-- Go `shouldEscape(c, encodePath)` of `net/url`: letters, digits and the
marks `-_.~$&+,/:;=@` are kept in a path, every other byte is escaped. -/
def shouldEscape (c : UInt8) : Bool :=
  if (0x61 ≤ c && c ≤ 0x7A) || (0x41 ≤ c && c ≤ 0x5A) || (0x30 ≤ c && c ≤ 0x39) then false
  else if c == 0x2D || c == 0x5F || c == 0x2E || c == 0x7E then false
  else if c == 0x24 || c == 0x26 || c == 0x2B || c == 0x2C || c == 0x2F || c == 0x3A
      || c == 0x3B || c == 0x3D || c == 0x40 then false
  else true

/-- Go `upperhex`: upper-case hexadecimal digit of a value below 16. -/
def upperhex (n : UInt8) : UInt8 := if n < 10 then 0x30 + n else 0x41 + (n - 10)

/-- Go `escape(s, encodePath)` of `net/url`: percent-encoding of a path. -/
def escape (s : Bytes) : Bytes :=
  s.flatMap fun c => if shouldEscape c then [0x25, upperhex (c / 16), upperhex (c % 16)] else [c]

/-- Go `url.String()` of the URL of a request in origin form after its path was
replaced by the rooted path `path`: the escaped path, then the query if there
is one. -/
def URLString (r : Request) (path : Bytes) : Bytes :=
  escape path ++ (if r.ForceQuery || r.RawQuery != [] then 0x3F :: r.RawQuery else [])

/-- Go `(*Router).ServeHTTP`: a path that is not in canonical form is
redirected to the request URL with the cleaned path; otherwise the matched
handler runs, or the method-not-allowed handler, which writes the status
only, or `http.NotFound`. -/
def ServeHTTP (routes : List Route) : HandlerFunc := fun world log w r =>
  if cleanPath r.Path != r.Path then
    ((w.SetHeader (utf8 "Location") (URLString r (cleanPath r.Path))).WriteHeader
      StatusMovedPermanently, log)
  else
    match Router.Match routes r with
    | (true, ⟨some handler, _⟩) => handler world log w r
    | (_, m) =>
      if m.MatchErr == .methodMismatch then (w.WriteHeader StatusMethodNotAllowed, log)
      else (Error w (utf8 "404 page not found") StatusNotFound, log)

/-! ## Vocabulary of the properties -/

/-- Go `json.Valid`: the whole input is one JSON value with optional white
space around it. -/
def Valid (data : Bytes) : Bool :=
  match scanValue (2 * data.length + 1) 0 data with
  | .ok _ rest => skipSpace rest == []
  | _ => false

/-- Whether a member value can be stored into a string field: a string, or
`null`. -/
def storableMember : JSONValue → Bool
  | .string _ => true
  | .null => true
  | _ => false

/-- Whether a JSON value can be stored into a `GenerateRequest`: `null`, or an
object in which every member addressing a field holds a string or `null`. -/
def storable : JSONValue → Bool
  | .null => true
  | .object members => members.all fun kv => (findField kv.1).isNone || storableMember kv.2
  | _ => false

/-- The JSON text `handleGenerate` sends for a decoded request: the object
with the members `model` and `prompt`, each value quoted by `appendString`. -/
def payload (req : GenerateRequest) : Bytes :=
  utf8 "\x7b\"model\":" ++ appendString req.Model ++ utf8 ",\"prompt\":"
    ++ appendString req.Prompt ++ utf8 "\x7d"

/-- The first attempt of a `handleGenerate` run for a decoded request: a POST
of the payload to the generate endpoint. -/
def generateRequest (req : GenerateRequest) : Attempt :=
  ⟨utf8 "POST", utf8 "http://localhost:11434/api/generate",
   some (utf8 "application/json", payload req)⟩

/-- The first attempt of a `handleListModels` run: a GET of the tags endpoint,
without a body. -/
def tagsRequest : Attempt := ⟨utf8 "GET", utf8 "http://localhost:11434/api/tags", none⟩

/-- The headers `http.Error` sends. -/
def errorHeader : Header :=
  [(utf8 "Content-Type", utf8 "text/plain; charset=utf-8"),
   (utf8 "X-Content-Type-Options", utf8 "nosniff")]

/-- The headers both handlers send with a relayed body. -/
def jsonHeader : Header := [(utf8 "Content-Type", utf8 "application/json")]

/-- The text of a `*url.Error` whose URL needs no quoting beyond the quotes
around it: `Op "URL": Err`. -/
def plainErrorText : ClientError → Bytes
  | .send op url err => op ++ utf8 " \"" ++ url ++ utf8 "\": " ++ err
  | .location op url loc err =>
    op ++ utf8 " \"" ++ url ++ utf8 "\": failed to parse Location header \"" ++ loc
      ++ utf8 "\": " ++ err
  | .redirects op loc => op ++ utf8 " \"" ++ loc ++ utf8 "\": stopped after 10 redirects"

/-- A world for the examples, in which every `Location` is an absolute URL in
the form `String()` prints, so that it resolves to itself, and no URL needs
quoting in an error text.  The pool holds `idle log` idle connections after
the attempts `log`. -/
def exampleWorld (answer : List Attempt → Attempt → Outcome) (idle : List Attempt → Nat) :
    World :=
  ⟨answer, fun log _ => idle log, fun _ loc => .ok loc, plainErrorText⟩

/-- An upstream that answers every attempt with the same response, on new
connections. -/
def worldAnswering (resp : Response) : World :=
  exampleWorld (fun _ _ => .response resp) (fun _ => 0)

/-- An upstream every attempt to reach which fails with the same error. -/
def worldFailing (err : Bytes) : World :=
  exampleWorld (fun _ _ => .failed err) (fun _ => 0)

/-- A Unicode scalar value: at most U+10FFFF and not a surrogate. -/
def ValidRune (n : Nat) : Prop := n ≤ 0x10FFFF ∧ ¬ (0xD800 ≤ n ∧ n ≤ 0xDFFF)

/-- Valid UTF-8: a sequence of encoded Unicode scalar values. -/
inductive ValidUTF8 : Bytes → Prop where
  | nil : ValidUTF8 []
  | cons (c : Nat) (s : Bytes) : ValidRune c → ValidUTF8 s → ValidUTF8 (EncodeRune c ++ s)

/-- What `appendString` writes for one Unicode scalar value. -/
def quoteRune (c : Nat) : Bytes :=
  if c < 0x80 then
    (if htmlSafe (UInt8.ofNat c) then [UInt8.ofNat c] else escapeByte (UInt8.ofNat c))
  else if c = 0x2028 then utf8 "\\u2028"
  else if c = 0x2029 then utf8 "\\u2029"
  else EncodeRune c

/-- Whether the scanner reads back what `appendString` writes for the ASCII
byte `b`: the byte itself when it is written as such, a two-character escape
that stands for it, or a `\u` escape with its value. -/
def quoteOK (b : UInt8) : Bool :=
  if htmlSafe b then b != 0x22 && b != 0x5C && !(decide (b < 0x20)) && decide (b < 0x80)
  else
    match escapeByte b with
    | [s, e] => s == 0x5C && e != 0x75 && unescape e == some b
    | [s, u, h1, h2, h3, h4] =>
      s == 0x5C && u == 0x75 && getu4 h1 h2 h3 h4 == some b.toNat
    | _ => false

/-- The strings a JSON value holds at its top are valid UTF-8: the value
itself when it is a string, the string members when it is an object. -/
def StringsValid : JSONValue → Prop
  | .string s => ValidUTF8 s
  | .object members => ∀ k s, (k, JSONValue.string s) ∈ members → ValidUTF8 s
  | _ => True

/-- Whether the client hands a response to its caller instead of following
it: the status code is not 301, 302, 303, 307 or 308, or there is no
`Location`. -/
def returned (resp : Response) : Bool :=
  !(resp.StatusCode == 301 || resp.StatusCode == 302 || resp.StatusCode == 303
      || resp.StatusCode == 307 || resp.StatusCode == 308)
    || resp.Header.Get (utf8 "Location") == []

/-- The client call of `handleGenerate` for a decoded request:
`client.Post` of the payload to the generate endpoint. -/
def generateCall (w : World) (log : List Attempt) (req : GenerateRequest) :
    Except Bytes Response × List Attempt :=
  Post w log (utf8 "http://localhost:11434/api/generate") (utf8 "application/json") (payload req)

/-- The client call of `handleListModels`: `client.Get` of the tags endpoint. -/
def tagsCall (w : World) (log : List Attempt) : Except Bytes Response × List Attempt :=
  Get w log (utf8 "http://localhost:11434/api/tags")

/-- An upstream that answers the first attempt after the start of the log
with a 307 redirect to `loc` and the body `first-answer`, and every later
attempt with 200 and the body `second-answer`. -/
def worldRedirecting (loc : Bytes) : World :=
  exampleWorld
    (fun log _ =>
      if log.length == 0 then
        .response ⟨307, [(utf8 "Location", loc)], [utf8 "first-answer"]⟩
      else .response ⟨200, [], [utf8 "second-answer"]⟩)
    (fun _ => 0)

/-- An upstream that answers the first attempt with a 307 redirect to `loc`,
an address at which every attempt to connect fails with `err`. -/
def worldRedirectingToDead (loc err : Bytes) : World :=
  exampleWorld
    (fun log _ =>
      if log.length == 0 then .response ⟨307, [(utf8 "Location", loc)], []⟩ else .failed err)
    (fun _ => 0)

/-- An upstream that answers every attempt with a 302 redirect to `loc`. -/
def worldLooping (loc : Bytes) : World :=
  worldAnswering ⟨302, [(utf8 "Location", loc)], [utf8 "moved"]⟩

/-- An upstream that answers every attempt it receives with 200 and `body`,
and closes the connection the first attempt was answered on while it sits
idle in the pool: the second attempt goes out on that connection and finds it
closed before any byte of a response. -/
def worldClosingIdle (body : Bytes) : World :=
  exampleWorld
    (fun log _ => if log.length == 1 then .serverClosed (utf8 "EOF") else .response ⟨200, [], [body]⟩)
    (fun log => if log.length == 1 then 1 else 0)


/-! ## Scanning consumes input: the fuel of `Decode` is enough -/

theorem skipSpace_length (l : Bytes) : (skipSpace l).length ≤ l.length := by
  induction l with
  | nil => simp [skipSpace]
  | cons c rest ih =>
    unfold skipSpace
    split
    · simp; omega
    · simp

theorem skipSpace_cons_length {l rest : Bytes} {c : UInt8} (h : skipSpace l = c :: rest) :
    rest.length + 1 ≤ l.length := by
  have := skipSpace_length l
  rw [h] at this
  simpa using this

theorem consOut_rest {out : Bytes} {x : Option (Bytes × Bytes)} {s rest : Bytes}
    (h : consOut out x = some (s, rest)) : ∃ s1, x = some (s1, rest) := by
  cases x with
  | none => simp [consOut] at h
  | some p =>
    obtain ⟨a, b⟩ := p
    simp [consOut] at h
    exact ⟨a, by rw [h.2]⟩

theorem scanStringFrom_length (l : Bytes) : ∀ (skip : Nat) (s rest : Bytes),
    scanStringFrom skip l = some (s, rest) → rest.length ≤ l.length := by
  induction l with
  | nil => intro skip s rest h; cases skip <;> simp [scanStringFrom] at h
  | cons c l ih =>
    intro skip s rest h
    cases skip with
    | succ k =>
      simp only [scanStringFrom] at h
      have := ih _ _ _ h
      simp; omega
    | zero =>
      simp only [scanStringFrom] at h
      split at h
      · simp at h; simp [h.2]
      · split at h
        · simp at h
        · obtain ⟨s1, h1⟩ := consOut_rest h
          have := ih _ _ _ h1
          simp; omega

theorem scanString_length {l s rest : Bytes} (h : scanString l = some (s, rest)) :
    rest.length ≤ l.length :=
  scanStringFrom_length l 0 s rest h

theorem takeDigits_length (l : Bytes) : (takeDigits l).2.length ≤ l.length := by
  induction l with
  | nil => simp [takeDigits]
  | cons c rest ih =>
    unfold takeDigits
    split
    · simp; omega
    · simp

theorem scanExp_length {lit l x rest : Bytes} (h : scanExp lit l = some (x, rest)) :
    rest.length ≤ l.length := by
  unfold scanExp at h
  split at h
  · simp at h; simp [h.2]
  · rename_i e rest0
    split at h
    · split at h
      · simp at h
      · rename_i s rest1
        split at h
        · split at h
          · simp at h
          · rename_i ds r hd
            simp at h
            have := takeDigits_length rest1
            rw [hd] at this
            simp at this ⊢
            rw [← h.2]; omega
        · split at h
          · simp at h
          · rename_i ds r hd
            simp at h
            have := takeDigits_length (s :: rest1)
            rw [hd] at this
            simp at this ⊢
            rw [← h.2]; omega
    · simp at h; simp [← h.2]

theorem scanFrac_length {lit l x rest : Bytes} (h : scanFrac lit l = some (x, rest)) :
    rest.length ≤ l.length := by
  unfold scanFrac at h
  split at h
  · simp at h; simp [h.2]
  · rename_i c rest0
    split at h
    · split at h
      · simp at h
      · rename_i ds r hd
        have h1 := scanExp_length h
        have := takeDigits_length rest0
        rw [hd] at this
        simp at this ⊢
        omega
    · exact scanExp_length h

theorem scanInt_length {sign l x rest : Bytes} (h : scanInt sign l = some (x, rest)) :
    rest.length + 1 ≤ l.length := by
  unfold scanInt at h
  split at h
  · simp at h
  · rename_i c rest0
    split at h
    · have := scanFrac_length h
      simp; omega
    · split at h
      · have := scanFrac_length h
        have := takeDigits_length rest0
        simp; omega
      · simp at h

theorem scanNumber_length {l x rest : Bytes} (h : scanNumber l = some (x, rest)) :
    rest.length + 1 ≤ l.length := by
  unfold scanNumber at h
  split at h
  · simp at h
  · rename_i c rest0
    split at h
    · have := scanInt_length h
      simp; omega
    · exact scanInt_length h

theorem scanLiteral_length (word : Bytes) : ∀ (l rest : Bytes),
    scanLiteral word l = some rest → rest.length ≤ l.length := by
  induction word with
  | nil => intro l rest h; simp [scanLiteral] at h; simp [h]
  | cons w word ih =>
    intro l rest h
    cases l with
    | nil => simp [scanLiteral] at h
    | cons c l =>
      simp only [scanLiteral] at h
      split at h
      · have := ih _ _ h
        simp; omega
      · simp at h

theorem scan_length (fuel : Nat) :
    (∀ depth input v rest, scanValue fuel depth input = .ok v rest →
      rest.length ≤ input.length) ∧
    (∀ depth input acc v rest, scanMembers fuel depth input acc = .ok v rest →
      rest.length ≤ input.length) ∧
    (∀ depth input acc v rest, scanElems fuel depth input acc = .ok v rest →
      rest.length ≤ input.length) := by
  induction fuel with
  | zero =>
    refine ⟨?_, ?_, ?_⟩
    · intro depth input v rest h; simp [scanValue] at h
    · intro depth input acc v rest h; simp [scanMembers] at h
    · intro depth input acc v rest h; simp [scanElems] at h
  | succ fuel ih =>
    obtain ⟨ihV, ihM, ihE⟩ := ih
    refine ⟨?_, ?_, ?_⟩
    · intro depth input v rest h
      rw [scanValue] at h
      split at h
      · simp at h
      · rename_i c rest0 hs
        have hlen := skipSpace_cons_length hs
        split at h
        · split at h
          · simp at h
          · split at h
            · simp at h
            · rename_i c1 rest1 hs1
              have hlen1 := skipSpace_cons_length hs1
              split at h
              · simp at h; rw [← h.2]; omega
              · have := ihM _ _ _ _ _ h
                simp at this; omega
        · split at h
          · split at h
            · simp at h
            · split at h
              · simp at h
              · rename_i c1 rest1 hs1
                have hlen1 := skipSpace_cons_length hs1
                split at h
                · simp at h; rw [← h.2]; omega
                · have := ihE _ _ _ _ _ h
                  simp at this; omega
          · split at h
            · split at h
              · rename_i s rest1 hstr
                have := scanString_length hstr
                simp at h; rw [← h.2]; omega
              · simp at h
            · split at h
              · split at h
                · rename_i lit rest1 hnum
                  have := scanNumber_length hnum
                  simp at this h; rw [← h.2]; omega
                · simp at h
              · split at h
                · split at h
                  · rename_i rest1 hl
                    have := scanLiteral_length _ _ _ hl
                    simp at h; rw [← h.2]; omega
                  · simp at h
                · split at h
                  · split at h
                    · rename_i rest1 hl
                      have := scanLiteral_length _ _ _ hl
                      simp at h; rw [← h.2]; omega
                    · simp at h
                  · split at h
                    · split at h
                      · rename_i rest1 hl
                        have := scanLiteral_length _ _ _ hl
                        simp at h; rw [← h.2]; omega
                      · simp at h
                    · simp at h
    · intro depth input acc v rest h
      rw [scanMembers] at h
      split at h
      · simp at h
      · rename_i q rest0 hs
        have hlen := skipSpace_cons_length hs
        split at h
        · simp at h
        · split at h
          · simp at h
          · rename_i key rest1 hstr
            have hlen1 := scanString_length hstr
            split at h
            · simp at h
            · rename_i col rest2 hs2
              have hlen2 := skipSpace_cons_length hs2
              split at h
              · simp at h
              · split at h
                · simp at h
                · simp at h
                · rename_i v1 rest3 hv
                  have hlen3 := ihV _ _ _ _ hv
                  split at h
                  · simp at h
                  · rename_i d rest4 hs4
                    have hlen4 := skipSpace_cons_length hs4
                    split at h
                    · have := ihM _ _ _ _ _ h
                      omega
                    · split at h
                      · simp at h; rw [← h.2]; omega
                      · simp at h
    · intro depth input acc v rest h
      rw [scanElems] at h
      split at h
      · simp at h
      · simp at h
      · rename_i v1 rest1 hv
        have hlen1 := ihV _ _ _ _ hv
        split at h
        · simp at h
        · rename_i d rest2 hs2
          have hlen2 := skipSpace_cons_length hs2
          split at h
          · have := ihE _ _ _ _ _ h
            omega
          · split at h
            · simp at h; rw [← h.2]; omega
            · simp at h

theorem scan_fuel (fuel : Nat) :
    (∀ depth input, 2 * input.length < fuel → scanValue fuel depth input ≠ .outOfFuel) ∧
    (∀ depth input acc, 2 * input.length + 1 < fuel →
      scanMembers fuel depth input acc ≠ .outOfFuel) ∧
    (∀ depth input acc, 2 * input.length + 1 < fuel →
      scanElems fuel depth input acc ≠ .outOfFuel) := by
  induction fuel with
  | zero =>
    refine ⟨?_, ?_, ?_⟩
    · intro depth input hf; omega
    · intro depth input acc hf; omega
    · intro depth input acc hf; omega
  | succ fuel ih =>
    obtain ⟨ihV, ihM, ihE⟩ := ih
    refine ⟨?_, ?_, ?_⟩
    · intro depth input hf h
      rw [scanValue] at h
      split at h
      · simp at h
      · rename_i c rest0 hs
        have hlen := skipSpace_cons_length hs
        split at h
        · split at h
          · simp at h
          · split at h
            · simp at h
            · rename_i c1 rest1 hs1
              have hlen1 := skipSpace_cons_length hs1
              split at h
              · simp at h
              · exact ihM _ _ _ (by simp; omega) h
        · split at h
          · split at h
            · simp at h
            · split at h
              · simp at h
              · rename_i c1 rest1 hs1
                have hlen1 := skipSpace_cons_length hs1
                split at h
                · simp at h
                · exact ihE _ _ _ (by simp; omega) h
          · split at h
            · split at h <;> simp at h
            · split at h
              · split at h <;> simp at h
              · split at h
                · split at h <;> simp at h
                · split at h
                  · split at h <;> simp at h
                  · split at h
                    · split at h <;> simp at h
                    · simp at h
    · intro depth input acc hf h
      rw [scanMembers] at h
      split at h
      · simp at h
      · rename_i q rest0 hs
        have hlen := skipSpace_cons_length hs
        split at h
        · simp at h
        · split at h
          · simp at h
          · rename_i key rest1 hstr
            have hlen1 := scanString_length hstr
            split at h
            · simp at h
            · rename_i col rest2 hs2
              have hlen2 := skipSpace_cons_length hs2
              split at h
              · simp at h
              · split at h
                · simp at h
                · rename_i hv
                  exact ihV _ _ (by omega) hv
                · rename_i v1 rest3 hv
                  have hlen3 := (scan_length fuel).1 _ _ _ _ hv
                  split at h
                  · simp at h
                  · rename_i d rest4 hs4
                    have hlen4 := skipSpace_cons_length hs4
                    split at h
                    · exact ihM _ _ _ (by omega) h
                    · split at h <;> simp at h
    · intro depth input acc hf h
      rw [scanElems] at h
      split at h
      · simp at h
      · rename_i hv
        exact ihV _ _ (by omega) hv
      · rename_i v1 rest1 hv
        have hlen1 := (scan_length fuel).1 _ _ _ _ hv
        split at h
        · simp at h
        · rename_i d rest2 hs2
          have hlen2 := skipSpace_cons_length hs2
          split at h
          · exact ihE _ _ _ (by omega) h
          · split at h <;> simp at h

/-- The fuel `Decode` gives the scanner is never exhausted: the scan of a body
ends with a value or with a syntax error. -/
theorem scanValue_fuel (body : Bytes) :
    scanValue (2 * body.length + 1) 0 body ≠ .outOfFuel :=
  (scan_fuel _).1 0 body (by omega)


/-! ## UTF-8: decoding what was encoded -/

theorem lt_iff (a b : UInt8) : a < b ↔ a.toNat < b.toNat := by
  rw [UInt8.lt_def, BitVec.lt_def]; rfl

theorem le_iff (a b : UInt8) : a ≤ b ↔ a.toNat ≤ b.toNat := by
  rw [UInt8.le_def, BitVec.le_def]; rfl

theorem eq_iff (a b : UInt8) : a = b ↔ a.toNat = b.toNat :=
  ⟨fun h => by rw [h], UInt8.toNat.inj⟩

theorem toNat_lt (a : UInt8) : a.toNat < 256 := UInt8.toNat_lt_size a

theorem toNat_ofNat {n : Nat} (h : n < 256) : (UInt8.ofNat n).toNat = n :=
  UInt8.toNat_ofNat_of_lt h

theorem toNat_lit (n : Nat) : UInt8.toNat (no_index (OfNat.ofNat n)) = n % 256 := rfl

theorem DecodeRune_one (p0 : UInt8) (rest : Bytes) (h0 : p0.toNat < 0x80) :
    DecodeRune (p0 :: rest) = (p0.toNat, 1) := by
  simp only [DecodeRune, lt_iff, toNat_lit, Nat.reduceMod]
  rw [if_pos h0]

theorem DecodeRune_two (p0 b1 : UInt8) (rest : Bytes)
    (h0 : 0xC2 ≤ p0.toNat ∧ p0.toNat ≤ 0xDF) (h1 : 0x80 ≤ b1.toNat ∧ b1.toNat ≤ 0xBF) :
    DecodeRune (p0 :: b1 :: rest) = ((p0.toNat % 32) * 64 + b1.toNat % 64, 2) := by
  have f1 : p0.toNat < 224 := by omega
  have f2 : ¬ p0.toNat = 224 := by omega
  have f3 : ¬ p0.toNat = 240 := by omega
  have f4 : ¬ p0.toNat = 237 := by omega
  have f5 : ¬ p0.toNat = 244 := by omega
  simp only [DecodeRune, lt_iff, eq_iff, toNat_lit, beq_iff_eq, Bool.or_eq_true, decide_eq_true_eq,
    List.length_cons, Nat.reduceMod, f1, f2, f3, f4, f5, if_true, if_false]
  rw [if_neg (by omega), if_neg (by omega), if_neg (by omega), if_neg (by omega),
    if_pos (by omega)]

theorem DecodeRune_three (p0 b1 b2 : UInt8) (rest : Bytes)
    (h0 : 0xE0 ≤ p0.toNat ∧ p0.toNat ≤ 0xEF)
    (h1 : 0x80 ≤ b1.toNat ∧ b1.toNat ≤ 0xBF)
    (hE0 : p0.toNat = 0xE0 → 0xA0 ≤ b1.toNat) (hED : p0.toNat = 0xED → b1.toNat ≤ 0x9F)
    (h2 : 0x80 ≤ b2.toNat ∧ b2.toNat ≤ 0xBF) :
    DecodeRune (p0 :: b1 :: b2 :: rest)
      = ((p0.toNat % 16) * 4096 + (b1.toNat % 64) * 64 + b2.toNat % 64, 3) := by
  have f1 : ¬ p0.toNat < 224 := by omega
  have f1b : p0.toNat < 240 := by omega
  have f3 : ¬ p0.toNat = 240 := by omega
  have f5 : ¬ p0.toNat = 244 := by omega
  simp only [DecodeRune, lt_iff, eq_iff, toNat_lit, beq_iff_eq, Bool.or_eq_true, decide_eq_true_eq,
    List.length_cons, Nat.reduceMod, f1, f1b, f3, f5, if_true, if_false]
  rw [if_neg (by omega), if_neg (by omega), if_neg (by omega)]
  by_cases g1 : p0.toNat = 224 <;> by_cases g2 : p0.toNat = 237
  · omega
  · have := hE0 g1
    simp only [if_pos g1, if_neg g2, toNat_lit, Nat.reduceMod]
    rw [if_neg (by omega), if_neg (by omega), if_neg (by omega), if_pos (by omega)]
  · have := hED g2
    simp only [if_neg g1, if_pos g2, toNat_lit, Nat.reduceMod]
    rw [if_neg (by omega), if_neg (by omega), if_neg (by omega), if_pos (by omega)]
  · simp only [if_neg g1, if_neg g2, toNat_lit, Nat.reduceMod]
    rw [if_neg (by omega), if_neg (by omega), if_neg (by omega), if_pos (by omega)]

theorem DecodeRune_four (p0 b1 b2 b3 : UInt8) (rest : Bytes)
    (h0 : 0xF0 ≤ p0.toNat ∧ p0.toNat ≤ 0xF4)
    (h1 : 0x80 ≤ b1.toNat ∧ b1.toNat ≤ 0xBF)
    (hF0 : p0.toNat = 0xF0 → 0x90 ≤ b1.toNat) (hF4 : p0.toNat = 0xF4 → b1.toNat ≤ 0x8F)
    (h2 : 0x80 ≤ b2.toNat ∧ b2.toNat ≤ 0xBF) (h3 : 0x80 ≤ b3.toNat ∧ b3.toNat ≤ 0xBF) :
    DecodeRune (p0 :: b1 :: b2 :: b3 :: rest)
      = ((p0.toNat % 8) * 262144 + (b1.toNat % 64) * 4096 + (b2.toNat % 64) * 64
          + b3.toNat % 64, 4) := by
  have f1 : ¬ p0.toNat < 224 := by omega
  have f1b : ¬ p0.toNat < 240 := by omega
  have f3 : ¬ p0.toNat = 224 := by omega
  have f5 : ¬ p0.toNat = 237 := by omega
  simp only [DecodeRune, lt_iff, eq_iff, toNat_lit, beq_iff_eq, Bool.or_eq_true, decide_eq_true_eq,
    List.length_cons, Nat.reduceMod, f1, f1b, f3, f5, if_true, if_false]
  rw [if_neg (by omega), if_neg (by omega), if_neg (by omega)]
  by_cases g1 : p0.toNat = 240 <;> by_cases g2 : p0.toNat = 244
  · omega
  · have := hF0 g1
    simp only [if_pos g1, if_neg g2, toNat_lit, Nat.reduceMod]
    rw [if_neg (by omega), if_neg (by omega), if_neg (by omega), if_neg (by omega),
      if_neg (by omega)]
  · have := hF4 g2
    simp only [if_neg g1, if_pos g2, toNat_lit, Nat.reduceMod]
    rw [if_neg (by omega), if_neg (by omega), if_neg (by omega), if_neg (by omega),
      if_neg (by omega)]
  · simp only [if_neg g1, if_neg g2, toNat_lit, Nat.reduceMod]
    rw [if_neg (by omega), if_neg (by omega), if_neg (by omega), if_neg (by omega),
      if_neg (by omega)]

theorem DecodeRune_EncodeRune (n : Nat) (h : ValidRune n)
    (rest : Bytes) :
    DecodeRune (EncodeRune n ++ rest) = (n, (EncodeRune n).length) := by
  unfold ValidRune at h
  unfold EncodeRune
  by_cases h1 : n ≤ 0x7F
  · rw [if_pos h1]
    show DecodeRune (UInt8.ofNat n :: rest) = _
    rw [DecodeRune_one _ _ (by rw [toNat_ofNat (by omega)]; omega), toNat_ofNat (by omega)]
    rfl
  · rw [if_neg h1]
    by_cases h2 : n ≤ 0x7FF
    · rw [if_pos h2]
      show DecodeRune (UInt8.ofNat _ :: UInt8.ofNat _ :: rest) = _
      rw [DecodeRune_two _ _ _ (by rw [toNat_ofNat (by omega)]; omega)
        (by rw [toNat_ofNat (by omega)]; omega), toNat_ofNat (by omega), toNat_ofNat (by omega)]
      simp only [List.length_cons, List.length_nil, Prod.mk.injEq, and_true]
      omega
    · rw [if_neg h2]
      have h3 : ¬ ((decide (0x10FFFF < n) || (decide (0xD800 ≤ n) && decide (n ≤ 0xDFFF))) = true) := by
        simp only [Bool.or_eq_true, Bool.and_eq_true, decide_eq_true_eq]
        omega
      rw [if_neg h3]
      by_cases h4 : n ≤ 0xFFFF
      · rw [if_pos h4]
        show DecodeRune (UInt8.ofNat _ :: UInt8.ofNat _ :: UInt8.ofNat _ :: rest) = _
        rw [DecodeRune_three _ _ _ _ (by rw [toNat_ofNat (by omega)]; omega)
          (by rw [toNat_ofNat (by omega)]; omega)
          (by rw [toNat_ofNat (by omega), toNat_ofNat (by omega)]; omega)
          (by rw [toNat_ofNat (by omega), toNat_ofNat (by omega)]; omega)
          (by rw [toNat_ofNat (by omega)]; omega),
          toNat_ofNat (by omega), toNat_ofNat (by omega), toNat_ofNat (by omega)]
        simp only [List.length_cons, List.length_nil, Prod.mk.injEq, and_true]
        omega
      · rw [if_neg h4]
        show DecodeRune (UInt8.ofNat _ :: UInt8.ofNat _ :: UInt8.ofNat _ :: UInt8.ofNat _ :: rest) = _
        rw [DecodeRune_four _ _ _ _ _ (by rw [toNat_ofNat (by omega)]; omega)
          (by rw [toNat_ofNat (by omega)]; omega)
          (by rw [toNat_ofNat (by omega), toNat_ofNat (by omega)]; omega)
          (by rw [toNat_ofNat (by omega), toNat_ofNat (by omega)]; omega)
          (by rw [toNat_ofNat (by omega)]; omega) (by rw [toNat_ofNat (by omega)]; omega),
          toNat_ofNat (by omega), toNat_ofNat (by omega), toNat_ofNat (by omega),
          toNat_ofNat (by omega)]
        simp only [List.length_cons, List.length_nil, Prod.mk.injEq, and_true]
        omega


theorem EncodeRune_ascii (b : UInt8) (h : b.toNat < 0x80) : EncodeRune b.toNat = [b] := by
  unfold EncodeRune
  rw [if_pos (by omega)]
  congr 1
  apply UInt8.toNat.inj
  rw [toNat_ofNat (by omega)]

theorem EncodeRune_head (c : Nat) (hv : ValidRune c) (h : 0x80 ≤ c) :
    ∃ b r, EncodeRune c = b :: r ∧ 0x80 ≤ b.toNat ∧ r ≠ [] := by
  unfold ValidRune at hv
  unfold EncodeRune
  rw [if_neg (by omega)]
  by_cases h2 : c ≤ 0x7FF
  · rw [if_pos h2]
    exact ⟨_, _, rfl, by rw [toNat_ofNat (by omega)]; omega, by simp⟩
  · rw [if_neg h2]
    have h3 : ¬ ((decide (0x10FFFF < c) || (decide (0xD800 ≤ c) && decide (c ≤ 0xDFFF))) = true) := by
      simp only [Bool.or_eq_true, Bool.and_eq_true, decide_eq_true_eq]
      omega
    rw [if_neg h3]
    by_cases h4 : c ≤ 0xFFFF
    · rw [if_pos h4]
      exact ⟨_, _, rfl, by rw [toNat_ofNat (by omega)]; omega, by simp⟩
    · rw [if_neg h4]
      exact ⟨_, _, rfl, by rw [toNat_ofNat (by omega)]; omega, by simp⟩

theorem EncodeRune_valid (n : Nat) : ∃ c, ValidRune c ∧ EncodeRune n = EncodeRune c := by
  by_cases hv : ValidRune n
  · exact ⟨n, hv, rfl⟩
  · refine ⟨0xFFFD, by unfold ValidRune; omega, ?_⟩
    unfold ValidRune at hv
    have h3 : (decide (0x10FFFF < n) || (decide (0xD800 ≤ n) && decide (n ≤ 0xDFFF))) = true := by
      simp only [Bool.or_eq_true, Bool.and_eq_true, decide_eq_true_eq]
      omega
    have e1 : EncodeRune n = [0xEF, 0xBF, 0xBD] := by
      unfold EncodeRune
      rw [if_neg (by omega), if_neg (by omega), if_pos h3]
    rw [e1]
    decide

theorem appendRunesFrom_skip (x : Bytes) : ∀ (k : Nat) (s : Bytes), x.length = k →
    appendRunesFrom k (x ++ s) = appendRunesFrom 0 s := by
  induction x with
  | nil => intro k s h; simp at h; subst h; rfl
  | cons a x ih =>
    intro k s h
    cases k with
    | zero => simp at h
    | succ k =>
      simp only [List.cons_append, appendRunesFrom]
      exact ih k s (by simpa using h)

theorem scanStringFrom_skip (x : Bytes) : ∀ (k : Nat) (s : Bytes), x.length = k →
    scanStringFrom k (x ++ s) = scanStringFrom 0 s := by
  induction x with
  | nil => intro k s h; simp at h; subst h; rfl
  | cons a x ih =>
    intro k s h
    cases k with
    | zero => simp at h
    | succ k =>
      simp only [List.cons_append, scanStringFrom]
      exact ih k s (by simpa using h)

theorem appendStep_ascii (b : UInt8) (rest : Bytes) (h : b.toNat < 0x80) :
    appendStep (b :: rest) = (if htmlSafe b then [b] else escapeByte b, 1) := by
  simp only [appendStep, lt_iff, toNat_lit, Nat.reduceMod]
  rw [if_pos h]

theorem appendStep_rune (c : Nat) (hv : ValidRune c) (h : 0x80 ≤ c) (s : Bytes) :
    appendStep (EncodeRune c ++ s) = (quoteRune c, (EncodeRune c).length) := by
  obtain ⟨b, r, hb, hb80, hr⟩ := EncodeRune_head c hv h
  have hd := DecodeRune_EncodeRune c hv s
  have hlen : 2 ≤ (EncodeRune c).length := by
    rw [hb]
    cases r with
    | nil => exact absurd rfl hr
    | cons a r => simp
  have htake : List.take (EncodeRune c).length (EncodeRune c ++ s) = EncodeRune c := by
    simp
  rw [hb] at hd htake ⊢
  simp only [List.cons_append] at hd htake ⊢
  simp only [appendStep, lt_iff, toNat_lit, Nat.reduceMod]
  rw [if_neg (show ¬ b.toNat < 128 by omega), hd]
  have hne : ¬ ((c == RuneError && (b :: r).length == 1) = true) := by
    rw [hb] at hlen
    simp only [Bool.and_eq_true, beq_iff_eq, not_and]
    intro _
    omega
  rw [if_neg hne]
  simp only [quoteRune]
  rw [if_neg (show ¬ c < 128 by omega)]
  by_cases h1 : c = 0x2028
  · have e1 : (c == 0x2028) = true := by simpa using h1
    rw [if_pos e1, if_pos h1]
  · by_cases h2 : c = 0x2029
    · have e1 : ¬ ((c == 0x2028) = true) := by simpa using h1
      have e2 : (c == 0x2029) = true := by simpa using h2
      rw [if_neg e1, if_pos e2, if_neg h1, if_pos h2]
    · have e1 : ¬ ((c == 0x2028) = true) := by simpa using h1
      have e2 : ¬ ((c == 0x2029) = true) := by simpa using h2
      rw [if_neg e1, if_neg e2, if_neg h1, if_neg h2, htake, hb]

theorem appendRunesFrom_rune (c : Nat) (hv : ValidRune c) (s : Bytes) :
    appendRunesFrom 0 (EncodeRune c ++ s) = quoteRune c ++ appendRunesFrom 0 s := by
  by_cases h : c < 0x80
  · have hb : (UInt8.ofNat c).toNat = c := toNat_ofNat (by omega)
    have he : EncodeRune c = [UInt8.ofNat c] := by
      rw [← hb, EncodeRune_ascii _ (by omega), hb]
    rw [he]
    simp only [List.cons_append, List.nil_append, appendRunesFrom]
    rw [appendStep_ascii _ _ (by omega)]
    simp only [quoteRune, if_pos h]
    cases s <;> rfl
  · obtain ⟨b, r, hb, _, _⟩ := EncodeRune_head c hv (by omega)
    have hs := appendStep_rune c hv (by omega) s
    rw [hb] at hs ⊢
    simp only [List.cons_append] at hs ⊢
    simp only [appendRunesFrom]
    rw [hs]
    simp only [List.length_cons, Nat.add_sub_cancel]
    rw [appendRunesFrom_skip r _ s rfl]

/-! ## The scanner reads back what `appendString` writes -/

theorem quoteOK_all : ∀ n, n < 128 → quoteOK (UInt8.ofNat n) = true := by
  decide

theorem quoteOK_of_lt (b : UInt8) (h : b.toNat < 128) : quoteOK b = true := by
  have := quoteOK_all b.toNat h
  have e : UInt8.ofNat b.toNat = b := UInt8.toNat.inj (toNat_ofNat (by omega))
  rwa [e] at this

theorem scanStringFrom_step (b : UInt8) (tail out : Bytes) (width : Nat)
    (h1 : (b == 0x22) = false) (hu : unquoteStep (b :: tail) = some (out, width)) :
    scanStringFrom 0 (b :: tail) = consOut out (scanStringFrom (width - 1) tail) := by
  simp only [scanStringFrom, h1, hu, Bool.false_eq_true, if_false]

theorem scan_plain (b : UInt8) (tail : Bytes) (h1 : (b == 0x22) = false)
    (h2 : (b == 0x5C) = false) (h3 : ¬ b < 0x20) (h4 : b < 0x80) :
    scanStringFrom 0 (b :: tail) = consOut [b] (scanStringFrom 0 tail) := by
  have hu : unquoteStep (b :: tail) = some ([b], 1) := by
    simp only [unquoteStep, h2, if_neg h3, if_pos h4, Bool.false_eq_true, if_false]
  rw [scanStringFrom_step b tail [b] 1 h1 hu]

theorem scan_short (e b : UInt8) (tail : Bytes) (he : (e == 0x75) = false)
    (hu : unescape e = some b) :
    scanStringFrom 0 (0x5C :: e :: tail) = consOut [b] (scanStringFrom 0 tail) := by
  have q2 : ((0x5C : UInt8) == 0x5C) = true := by decide
  have hs : unquoteStep (0x5C :: e :: tail) = some ([b], 2) := by
    simp only [unquoteStep, q2, he, hu, Bool.false_eq_true, if_false, if_true]
  rw [scanStringFrom_step 0x5C (e :: tail) [b] 2 (by decide) hs]
  exact congrArg (consOut [b]) (scanStringFrom_skip [e] 1 tail rfl)

theorem scan_u4 (h1 h2 h3 h4 : UInt8) (tail : Bytes) (rr : Nat)
    (hg : getu4 h1 h2 h3 h4 = some rr) (hs : IsSurrogate rr = false) :
    scanStringFrom 0 (0x5C :: 0x75 :: h1 :: h2 :: h3 :: h4 :: tail)
      = consOut (EncodeRune rr) (scanStringFrom 0 tail) := by
  have q2 : ((0x5C : UInt8) == 0x5C) = true := by decide
  have q3 : ((0x75 : UInt8) == 0x75) = true := by decide
  have hu : unquoteStep (0x5C :: 0x75 :: h1 :: h2 :: h3 :: h4 :: tail)
      = some (EncodeRune rr, 6) := by
    simp only [unquoteStep, q2, q3, hg, hs, Bool.false_eq_true, if_false, if_true]
  rw [scanStringFrom_step 0x5C _ _ 6 (by decide) hu]
  exact congrArg (consOut (EncodeRune rr))
    (scanStringFrom_skip [0x75, h1, h2, h3, h4] 5 tail rfl)

theorem scan_rune (c : Nat) (hv : ValidRune c) (h : 0x80 ≤ c) (tail : Bytes) :
    scanStringFrom 0 (EncodeRune c ++ tail) = consOut (EncodeRune c) (scanStringFrom 0 tail) := by
  obtain ⟨b, r, hb, hb80, hr⟩ := EncodeRune_head c hv h
  have hd := DecodeRune_EncodeRune c hv tail
  rw [hb] at hd
  have q1 : (b == 0x22) = false := by
    rw [beq_eq_false_iff_ne]; intro e; rw [e] at hb80; revert hb80; decide
  have q2 : (b == 0x5C) = false := by
    rw [beq_eq_false_iff_ne]; intro e; rw [e] at hb80; revert hb80; decide
  have q3 : ¬ b < 0x20 := by simp only [lt_iff, toNat_lit, Nat.reduceMod]; omega
  have q4 : ¬ b < 0x80 := by simp only [lt_iff, toNat_lit, Nat.reduceMod]; omega
  have hu : unquoteStep (b :: (r ++ tail)) = some (b :: r, (b :: r).length) := by
    have hd1 : DecodeRune (b :: (r ++ tail)) = (c, (b :: r).length) := hd
    simp only [unquoteStep, q2, if_neg q3, if_neg q4, Bool.false_eq_true, if_false, hd1, hb]
  rw [hb]
  show scanStringFrom 0 (b :: (r ++ tail)) = _
  rw [scanStringFrom_step b _ _ _ q1 hu]
  exact congrArg (consOut (b :: r)) (scanStringFrom_skip r _ tail (by simp))

theorem scan_quoteRune (c : Nat) (hv : ValidRune c) (tail : Bytes) :
    scanStringFrom 0 (quoteRune c ++ tail) = consOut (EncodeRune c) (scanStringFrom 0 tail) := by
  unfold quoteRune
  by_cases h : c < 0x80
  · rw [if_pos h]
    have hb : (UInt8.ofNat c).toNat = c := toNat_ofNat (by omega)
    have he : EncodeRune c = [UInt8.ofNat c] := by
      rw [← hb, EncodeRune_ascii _ (by omega), hb]
    have hok := quoteOK_of_lt (UInt8.ofNat c) (by omega)
    rw [he]
    generalize UInt8.ofNat c = b at hok hb
    unfold quoteOK at hok
    by_cases hs : htmlSafe b = true
    · rw [if_pos hs] at hok ⊢
      simp only [Bool.and_eq_true, bne_iff_ne, ne_eq, Bool.not_eq_true', decide_eq_false_iff_not,
        decide_eq_true_eq] at hok
      obtain ⟨⟨⟨g1, g2⟩, g3⟩, g4⟩ := hok
      exact scan_plain b tail (by simpa using g1) (by simpa using g2) g3 g4
    · rw [if_neg hs] at hok ⊢
      split at hok
      · rename_i s e hx
        simp only [Bool.and_eq_true, beq_iff_eq, bne_iff_ne, ne_eq] at hok
        obtain ⟨⟨g1, g2⟩, g3⟩ := hok
        rw [hx, g1]
        exact scan_short e b tail (by simpa using g2) g3
      · rename_i s u h1 h2 h3 h4 hx
        simp only [Bool.and_eq_true, beq_iff_eq] at hok
        obtain ⟨⟨g1, g2⟩, g3⟩ := hok
        rw [hx, g1, g2]
        have hsur : IsSurrogate b.toNat = false := by
          unfold IsSurrogate
          simp only [Bool.and_eq_false_imp, decide_eq_true_eq, decide_eq_false_iff_not]
          omega
        have := scan_u4 h1 h2 h3 h4 tail b.toNat g3 hsur
        rw [EncodeRune_ascii b (by omega)] at this
        exact this
      · simp at hok
  · rw [if_neg h]
    by_cases h1 : c = 0x2028
    · rw [if_pos h1, h1]
      exact scan_u4 0x32 0x30 0x32 0x38 tail 0x2028 (by decide) (by decide)
    · rw [if_neg h1]
      by_cases h2 : c = 0x2029
      · rw [if_pos h2, h2]
        exact scan_u4 0x32 0x30 0x32 0x39 tail 0x2029 (by decide) (by decide)
      · rw [if_neg h2]
        exact scan_rune c hv (by omega) tail

theorem consOut_some (out s rest : Bytes) : consOut out (some (s, rest)) = some (out ++ s, rest) :=
  rfl

/-- The scanner reads back a quoted string: after the opening quote, what
`appendString` wrote for valid UTF-8 `s` scans as `s`, up to the closing quote. -/
theorem scanString_appendRunes (s : Bytes) (hs : ValidUTF8 s) (rest : Bytes) :
    scanString (appendRunes s ++ 0x22 :: rest) = some (s, rest) := by
  unfold scanString appendRunes
  induction hs with
  | nil =>
    have q : ((0x22 : UInt8) == 0x22) = true := by decide
    simp only [appendRunesFrom, List.nil_append, scanStringFrom, q, if_true]
  | cons c s hc _ ih =>
    rw [appendRunesFrom_rune c hc s, List.append_assoc, scan_quoteRune c hc, ih, consOut_some]

/-! ## What the decoder stores is valid UTF-8 -/

theorem ValidUTF8_encode (n : Nat) (s : Bytes) (hs : ValidUTF8 s) :
    ValidUTF8 (EncodeRune n ++ s) := by
  obtain ⟨c, hc, he⟩ := EncodeRune_valid n
  rw [he]
  exact ValidUTF8.cons c s hc hs

theorem ValidUTF8_ascii (b : UInt8) (s : Bytes) (hb : b.toNat < 0x80) (hs : ValidUTF8 s) :
    ValidUTF8 (b :: s) := by
  have := ValidUTF8_encode b.toNat s hs
  rwa [EncodeRune_ascii b hb] at this

theorem unescape_lt (e b : UInt8) (h : unescape e = some b) : b.toNat < 0x80 := by
  unfold unescape at h
  repeat' split at h
  all_goals first
    | (simp only [Option.some.injEq] at h; rw [← h]; decide)
    | simp at h

theorem unquoteStep_valid (l out : Bytes) (width : Nat) (h : unquoteStep l = some (out, width)) :
    ∃ n, out = EncodeRune n := by
  unfold unquoteStep at h
  split at h
  · simp at h
  · rename_i c rest
    split at h
    · split at h
      · simp at h
      · rename_i e rest1
        split at h
        · split at h
          · split at h
            · simp at h
            · split at h
              · split at h
                · simp only [Option.some.injEq, Prod.mk.injEq] at h
                  exact ⟨_, h.1.symm⟩
                · simp only [Option.some.injEq, Prod.mk.injEq] at h
                  exact ⟨_, h.1.symm⟩
              · simp only [Option.some.injEq, Prod.mk.injEq] at h
                exact ⟨_, h.1.symm⟩
          · simp at h
        · split at h
          · rename_i b hu
            simp only [Option.some.injEq, Prod.mk.injEq] at h
            refine ⟨b.toNat, ?_⟩
            rw [EncodeRune_ascii b (unescape_lt e b hu), h.1]
          · simp at h
    · split at h
      · simp at h
      · split at h
        · rename_i h80
          simp only [Option.some.injEq, Prod.mk.injEq] at h
          refine ⟨c.toNat, ?_⟩
          rw [EncodeRune_ascii c (by simpa only [lt_iff, toNat_lit, Nat.reduceMod] using h80), h.1]
        · simp only [Option.some.injEq, Prod.mk.injEq] at h
          exact ⟨_, h.1.symm⟩

theorem scanStringFrom_valid (l : Bytes) : ∀ (skip : Nat) (s rest : Bytes),
    scanStringFrom skip l = some (s, rest) → ValidUTF8 s := by
  induction l with
  | nil => intro skip s rest h; cases skip <;> simp [scanStringFrom] at h
  | cons c l ih =>
    intro skip s rest h
    cases skip with
    | succ k =>
      simp only [scanStringFrom] at h
      exact ih _ _ _ h
    | zero =>
      simp only [scanStringFrom] at h
      split at h
      · simp only [Option.some.injEq, Prod.mk.injEq] at h
        rw [← h.1]
        exact ValidUTF8.nil
      · split at h
        · simp at h
        · rename_i out width hu
          obtain ⟨n, hn⟩ := unquoteStep_valid _ _ _ hu
          cases hr : scanStringFrom (width - 1) l with
          | none => rw [hr] at h; simp [consOut] at h
          | some p =>
            obtain ⟨s1, rest1⟩ := p
            rw [hr] at h
            simp only [consOut, Option.some.injEq, Prod.mk.injEq] at h
            rw [← h.1, hn]
            exact ValidUTF8_encode n s1 (ih _ _ _ hr)

theorem scanString_valid {l s rest : Bytes} (h : scanString l = some (s, rest)) : ValidUTF8 s :=
  scanStringFrom_valid l 0 s rest h

theorem members_valid_snoc (acc : List (Bytes × JSONValue)) (key : Bytes) (v : JSONValue)
    (hacc : ∀ k s, (k, JSONValue.string s) ∈ acc → ValidUTF8 s) (hv : StringsValid v) :
    ∀ k s, (k, JSONValue.string s) ∈ acc ++ [(key, v)] → ValidUTF8 s := by
  intro k s hm
  rw [List.mem_append] at hm
  rcases hm with hm | hm
  · exact hacc k s hm
  · simp only [List.mem_singleton, Prod.mk.injEq] at hm
    rw [← hm.2] at hv
    exact hv

theorem scan_valid (fuel : Nat) :
    (∀ depth input v rest, scanValue fuel depth input = .ok v rest → StringsValid v) ∧
    (∀ depth input acc v rest, scanMembers fuel depth input acc = .ok v rest →
      (∀ k s, (k, JSONValue.string s) ∈ acc → ValidUTF8 s) → StringsValid v) ∧
    (∀ depth input acc v rest, scanElems fuel depth input acc = .ok v rest →
      StringsValid v) := by
  induction fuel with
  | zero =>
    refine ⟨?_, ?_, ?_⟩
    · intro depth input v rest h; simp [scanValue] at h
    · intro depth input acc v rest h; simp [scanMembers] at h
    · intro depth input acc v rest h; simp [scanElems] at h
  | succ fuel ih =>
    obtain ⟨ihV, ihM, ihE⟩ := ih
    refine ⟨?_, ?_, ?_⟩
    · intro depth input v rest h
      rw [scanValue] at h
      split at h
      · simp at h
      · split at h
        · split at h
          · simp at h
          · split at h
            · simp at h
            · split at h
              · simp only [Scan.ok.injEq] at h
                rw [← h.1]
                intro k s hm
                simp at hm
              · exact ihM _ _ _ _ _ h (by intro k s hm; simp at hm)
        · split at h
          · split at h
            · simp at h
            · split at h
              · simp at h
              · split at h
                · simp only [Scan.ok.injEq] at h
                  rw [← h.1]
                  trivial
                · exact ihE _ _ _ _ _ h
          · split at h
            · split at h
              · rename_i s rest1 hstr
                simp only [Scan.ok.injEq] at h
                rw [← h.1]
                exact scanString_valid hstr
              · simp at h
            · split at h
              · split at h
                · simp only [Scan.ok.injEq] at h
                  rw [← h.1]
                  trivial
                · simp at h
              · split at h
                · split at h
                  · simp only [Scan.ok.injEq] at h
                    rw [← h.1]
                    trivial
                  · simp at h
                · split at h
                  · split at h
                    · simp only [Scan.ok.injEq] at h
                      rw [← h.1]
                      trivial
                    · simp at h
                  · split at h
                    · split at h
                      · simp only [Scan.ok.injEq] at h
                        rw [← h.1]
                        trivial
                      · simp at h
                    · simp at h
    · intro depth input acc v rest h hacc
      rw [scanMembers] at h
      split at h
      · simp at h
      · split at h
        · simp at h
        · split at h
          · simp at h
          · split at h
            · simp at h
            · split at h
              · simp at h
              · split at h
                · simp at h
                · simp at h
                · rename_i v1 rest3 hv
                  have hv1 := ihV _ _ _ _ hv
                  split at h
                  · simp at h
                  · split at h
                    · exact ihM _ _ _ _ _ h (members_valid_snoc acc _ v1 hacc hv1)
                    · split at h
                      · simp only [Scan.ok.injEq] at h
                        rw [← h.1]
                        exact members_valid_snoc acc _ v1 hacc hv1
                      · simp at h
    · intro depth input acc v rest h
      rw [scanElems] at h
      split at h
      · simp at h
      · simp at h
      · split at h
        · simp at h
        · split at h
          · exact ihE _ _ _ _ _ h
          · split at h
            · simp only [Scan.ok.injEq] at h
              rw [← h.1]
              trivial
            · simp at h

theorem storeMember_valid (st : GenerateRequest × Bool) (kv : Bytes × JSONValue)
    (hst : ValidUTF8 st.1.Model ∧ ValidUTF8 st.1.Prompt)
    (hkv : ∀ s, kv.2 = JSONValue.string s → ValidUTF8 s) :
    ValidUTF8 (storeMember st kv).1.Model ∧ ValidUTF8 (storeMember st kv).1.Prompt := by
  unfold storeMember
  split
  · exact hst
  · rename_i f _
    split
    · rename_i s hs
      have := hkv s hs
      cases f
      · exact ⟨this, hst.2⟩
      · exact ⟨hst.1, this⟩
    · exact hst
    · exact hst

theorem foldl_storeMember_valid (members : List (Bytes × JSONValue)) :
    ∀ st : GenerateRequest × Bool, ValidUTF8 st.1.Model ∧ ValidUTF8 st.1.Prompt →
      (∀ k s, (k, JSONValue.string s) ∈ members → ValidUTF8 s) →
      ValidUTF8 (members.foldl storeMember st).1.Model ∧
        ValidUTF8 (members.foldl storeMember st).1.Prompt := by
  induction members with
  | nil => intro st hst _; exact hst
  | cons kv rest ih =>
    intro st hst hm
    rw [List.foldl_cons]
    apply ih
    · apply storeMember_valid st kv hst
      intro s hs
      apply hm kv.1 s
      rw [← hs]
      exact List.mem_cons_self _ _
    · intro k s hks
      exact hm k s (List.mem_cons_of_mem _ hks)

/-- The strings `Decode` stores are valid UTF-8: the scanner replaces every
invalid byte and every unpaired surrogate by U+FFFD. -/
theorem Decode_valid (body : Bytes) (req : GenerateRequest) (h : Decode body = .ok req) :
    ValidUTF8 req.Model ∧ ValidUTF8 req.Prompt := by
  unfold Decode at h
  split at h
  · rename_i v rest hs
    have hv := (scan_valid _).1 _ _ _ _ hs
    unfold unmarshal at h
    split at h
    · simp only [Except.ok.injEq] at h
      rw [← h]
      exact ⟨ValidUTF8.nil, ValidUTF8.nil⟩
    · rename_i members
      simp only [] at h
      split at h
      · simp at h
      · simp only [Except.ok.injEq] at h
        rw [← h]
        exact foldl_storeMember_valid members _ ⟨ValidUTF8.nil, ValidUTF8.nil⟩ hv
    · simp at h
  · simp at h
  · simp at h

/-! ## The payload is a JSON object with exactly the members `model` and `prompt` -/

theorem skipSpace_cons (c : UInt8) (l : Bytes) (h : isSpace c = false) :
    skipSpace (c :: l) = c :: l := by
  simp only [skipSpace, h, Bool.false_eq_true, if_false]

theorem scanValue_open (f d : Nat) (x : Bytes) (hd : ¬ maxNestingDepth ≤ d) :
    scanValue (f + 1) d (0x7B :: 0x22 :: x) = scanMembers f (d + 1) (0x22 :: x) [] := by
  have s1 : skipSpace (0x7B :: 0x22 :: x) = 0x7B :: 0x22 :: x := skipSpace_cons _ _ (by decide)
  have s2 : skipSpace (0x22 :: x) = 0x22 :: x := skipSpace_cons _ _ (by decide)
  have q1 : ((0x7B : UInt8) == 0x7B) = true := by decide
  have q2 : ((0x22 : UInt8) == 0x7D) = false := by decide
  rw [scanValue]
  simp only [s1, s2, q1, q2, if_neg hd, if_true, Bool.false_eq_true, if_false]

theorem scanValue_string (f d : Nat) (x s rest : Bytes) (h : scanString x = some (s, rest)) :
    scanValue (f + 1) d (0x22 :: x) = .ok (.string s) rest := by
  have s2 : skipSpace (0x22 :: x) = 0x22 :: x := skipSpace_cons _ _ (by decide)
  have q1 : ((0x22 : UInt8) == 0x7B) = false := by decide
  have q2 : ((0x22 : UInt8) == 0x5B) = false := by decide
  have q3 : ((0x22 : UInt8) == 0x22) = true := by decide
  rw [scanValue]
  simp only [s2, q1, q2, q3, h, if_true, Bool.false_eq_true, if_false]

theorem scanMembers_more (f d : Nat) (x key y z : Bytes) (v : JSONValue)
    (acc : List (Bytes × JSONValue)) (hk : scanString x = some (key, 0x3A :: y))
    (hv : scanValue f d y = .ok v (0x2C :: z)) :
    scanMembers (f + 1) d (0x22 :: x) acc = scanMembers f d z (acc ++ [(key, v)]) := by
  have s1 : skipSpace (0x22 :: x) = 0x22 :: x := skipSpace_cons _ _ (by decide)
  have s2 : skipSpace (0x3A :: y) = 0x3A :: y := skipSpace_cons _ _ (by decide)
  have s3 : skipSpace (0x2C :: z) = 0x2C :: z := skipSpace_cons _ _ (by decide)
  have q1 : ((0x22 : UInt8) != 0x22) = false := by decide
  have q2 : ((0x3A : UInt8) != 0x3A) = false := by decide
  have q3 : ((0x2C : UInt8) == 0x2C) = true := by decide
  rw [scanMembers]
  simp only [s1, s2, s3, q1, q2, q3, hk, hv, if_true, Bool.false_eq_true, if_false]

theorem scanMembers_last (f d : Nat) (x key y z : Bytes) (v : JSONValue)
    (acc : List (Bytes × JSONValue)) (hk : scanString x = some (key, 0x3A :: y))
    (hv : scanValue f d y = .ok v (0x7D :: z)) :
    scanMembers (f + 1) d (0x22 :: x) acc = .ok (.object (acc ++ [(key, v)])) z := by
  have s1 : skipSpace (0x22 :: x) = 0x22 :: x := skipSpace_cons _ _ (by decide)
  have s2 : skipSpace (0x3A :: y) = 0x3A :: y := skipSpace_cons _ _ (by decide)
  have s3 : skipSpace (0x7D :: z) = 0x7D :: z := skipSpace_cons _ _ (by decide)
  have q1 : ((0x22 : UInt8) != 0x22) = false := by decide
  have q2 : ((0x3A : UInt8) != 0x3A) = false := by decide
  have q3 : ((0x7D : UInt8) == 0x2C) = false := by decide
  have q4 : ((0x7D : UInt8) == 0x7D) = true := by decide
  rw [scanMembers]
  simp only [s1, s2, s3, q1, q2, q3, q4, hk, hv, if_true, Bool.false_eq_true, if_false]

theorem ValidUTF8_model : ValidUTF8 (utf8 "model") := by
  have e : utf8 "model" = [0x6D, 0x6F, 0x64, 0x65, 0x6C] := by decide
  rw [e]
  repeat' apply ValidUTF8_ascii _ _ (by decide)
  exact ValidUTF8.nil

theorem ValidUTF8_prompt : ValidUTF8 (utf8 "prompt") := by
  have e : utf8 "prompt" = [0x70, 0x72, 0x6F, 0x6D, 0x70, 0x74] := by decide
  rw [e]
  repeat' apply ValidUTF8_ascii _ _ (by decide)
  exact ValidUTF8.nil

theorem payload_eq (req : GenerateRequest) :
    payload req = 0x7B :: 0x22 :: (appendRunes (utf8 "model") ++ 0x22 :: 0x3A :: 0x22 ::
      (appendRunes req.Model ++ 0x22 :: 0x2C :: 0x22 :: (appendRunes (utf8 "prompt") ++
        0x22 :: 0x3A :: 0x22 :: (appendRunes req.Prompt ++ 0x22 :: [0x7D])))) := by
  have e1 : utf8 "\x7b\"model\":" = 0x7B :: 0x22 :: (appendRunes (utf8 "model") ++ [0x22, 0x3A]) := by
    decide
  have e2 : utf8 ",\"prompt\":" = 0x2C :: 0x22 :: (appendRunes (utf8 "prompt") ++ [0x22, 0x3A]) := by
    decide
  have e3 : utf8 "\x7d" = [0x7D] := by decide
  simp only [payload, appendString, e1, e2, e3, List.cons_append, List.append_assoc,
    List.nil_append]

/-- The payload scans, from its first byte to its last, as the object whose
members are `model` with the value `req.Model` and `prompt` with the value
`req.Prompt`, in that order and no other, when both strings are valid UTF-8. -/
theorem scanValue_payload (req : GenerateRequest) (hm : ValidUTF8 req.Model)
    (hp : ValidUTF8 req.Prompt) (f : Nat) :
    scanValue (f + 4) 0 (payload req)
      = .ok (.object [(utf8 "model", .string req.Model), (utf8 "prompt", .string req.Prompt)])
          [] := by
  rw [payload_eq, scanValue_open _ _ _ (by decide)]
  rw [scanMembers_more (f + 2) 1 _ (utf8 "model") _ _ (.string req.Model) []
    (scanString_appendRunes _ ValidUTF8_model _)
    (scanValue_string _ _ _ _ _ (scanString_appendRunes _ hm _))]
  rw [scanMembers_last (f + 1) 1 _ (utf8 "prompt") _ _ (.string req.Prompt) _
    (scanString_appendRunes _ ValidUTF8_prompt _)
    (scanValue_string _ _ _ _ _ (scanString_appendRunes _ hp _))]
  rfl

theorem payload_length (req : GenerateRequest) : 2 ≤ (payload req).length := by
  rw [payload_eq]
  simp only [List.length_cons]
  omega

theorem scanValue_payload_full (req : GenerateRequest) (hm : ValidUTF8 req.Model)
    (hp : ValidUTF8 req.Prompt) :
    scanValue (2 * (payload req).length + 1) 0 (payload req)
      = .ok (.object [(utf8 "model", .string req.Model), (utf8 "prompt", .string req.Prompt)])
          [] := by
  have h := payload_length req
  obtain ⟨f, hf⟩ : ∃ f, 2 * (payload req).length + 1 = f + 4 := ⟨2 * (payload req).length - 3, by omega⟩
  rw [hf]
  exact scanValue_payload req hm hp f

/-- Decoding the payload gives back the request it was built from. -/
theorem Decode_payload (req : GenerateRequest) (hm : ValidUTF8 req.Model)
    (hp : ValidUTF8 req.Prompt) : Decode (payload req) = .ok req := by
  unfold Decode
  rw [scanValue_payload_full req hm hp]
  have f1 : findField (utf8 "model") = some .Model := by decide
  have f2 : findField (utf8 "prompt") = some .Prompt := by decide
  simp [unmarshal, storeMember, f1, f2]
/-! ## The client, case by case -/

theorem roundTripFrom_log (w : World) (req : Attempt) : ∀ (idle : Nat) (log : List Attempt),
    ∃ more, (roundTripFrom w req idle log).2 = log ++ req :: more := by
  intro idle
  induction idle with
  | zero =>
    intro log
    simp only [roundTripFrom]
    split <;> exact ⟨[], rfl⟩
  | succ idle ih =>
    intro log
    simp only [roundTripFrom]
    split
    · exact ⟨[], rfl⟩
    · exact ⟨[], rfl⟩
    · obtain ⟨more, hm⟩ := ih (log ++ [req])
      exact ⟨req :: more, by rw [hm]; simp⟩
    · split
      · obtain ⟨more, hm⟩ := ih (log ++ [req])
        exact ⟨req :: more, by rw [hm]; simp⟩
      · exact ⟨[], rfl⟩

theorem roundTripFrom_response (w : World) (req : Attempt) (idle : Nat) (log : List Attempt)
    (resp : Response) (h : w.answer log req = .response resp) :
    roundTripFrom w req idle log = (.ok resp, log ++ [req]) := by
  cases idle <;> simp only [roundTripFrom, h]

theorem roundTripFrom_failed (w : World) (req : Attempt) (idle : Nat) (log : List Attempt)
    (err : Bytes) (h : w.answer log req = .failed err) :
    roundTripFrom w req idle log = (.error err, log ++ [req]) := by
  cases idle <;> simp only [roundTripFrom, h]

theorem redirectBehavior_none (m : Bytes) (resp : Response)
    (h : (resp.StatusCode == 301 || resp.StatusCode == 302 || resp.StatusCode == 303
      || resp.StatusCode == 307 || resp.StatusCode == 308) = false) :
    redirectBehavior m resp.StatusCode = none := by
  simp only [Bool.or_eq_false_iff] at h
  obtain ⟨⟨⟨⟨h1, h2⟩, h3⟩, h4⟩, h5⟩ := h
  simp only [redirectBehavior, h1, h2, h3, h4, h5, Bool.or_self, Bool.false_eq_true, if_false]

theorem hop_log (w : World) (op : Bytes) (body : Option (Bytes × Bytes)) (req : Attempt)
    (ib : Bool) (log : List Attempt) :
    ∃ more, (hop w op body req ib log).2 = log ++ req :: more := by
  obtain ⟨more, hm⟩ := roundTripFrom_log w req (w.idle log req) log
  refine ⟨more, ?_⟩
  rw [← hm]
  unfold hop RoundTrip
  split
  · rename_i h; rw [h]
  · rename_i h; rw [h]
    split
    · rfl
    · split
      · rfl
      · split <;> rfl

theorem hop_returned (w : World) (op : Bytes) (body : Option (Bytes × Bytes)) (req : Attempt)
    (ib : Bool) (log : List Attempt) (resp : Response)
    (h : w.answer log req = .response resp) (hr : returned resp = true) :
    hop w op body req ib log = (.done (.ok resp), log ++ [req]) := by
  unfold hop RoundTrip
  rw [roundTripFrom_response w req _ log resp h]
  simp only []
  unfold returned at hr
  cases hc : (resp.StatusCode == 301 || resp.StatusCode == 302 || resp.StatusCode == 303
      || resp.StatusCode == 307 || resp.StatusCode == 308)
  · rw [redirectBehavior_none _ resp hc]
  · rw [hc] at hr
    simp only [Bool.not_true, Bool.false_or] at hr
    split
    · rfl
    · rw [if_pos hr]

theorem hop_failed (w : World) (op : Bytes) (body : Option (Bytes × Bytes)) (req : Attempt)
    (ib : Bool) (log : List Attempt) (err : Bytes) (h : w.answer log req = .failed err) :
    hop w op body req ib log
      = (.done (.error (w.errorText (.send op req.url err))), log ++ [req]) := by
  unfold hop RoundTrip
  rw [roundTripFrom_failed w req _ log err h]

theorem followFrom_log (w : World) (op : Bytes) (body : Option (Bytes × Bytes)) :
    ∀ (hops : Nat) (req : Attempt) (ib : Bool) (log : List Attempt),
      ∃ more, (followFrom w op body hops req ib log).2 = log ++ req :: more := by
  intro hops
  induction hops with
  | zero =>
    intro req ib log
    obtain ⟨more, hm⟩ := hop_log w op body req ib log
    refine ⟨more, ?_⟩
    rw [← hm]
    simp only [followFrom]
    split
    · rename_i h; rw [h]
    · rename_i h; rw [h]
  | succ hops ih =>
    intro req ib log
    obtain ⟨more, hm⟩ := hop_log w op body req ib log
    simp only [followFrom]
    split
    · rename_i h
      rw [h] at hm
      exact ⟨more, hm⟩
    · rename_i req1 ib1 loc log1 h
      rw [h] at hm
      simp only [] at hm
      obtain ⟨more1, hm1⟩ := ih req1 ib1 log1
      refine ⟨more ++ req1 :: more1, ?_⟩
      rw [hm1, hm]
      simp

theorem followFrom_returned (w : World) (op : Bytes) (body : Option (Bytes × Bytes))
    (hops : Nat) (req : Attempt) (ib : Bool) (log : List Attempt) (resp : Response)
    (h : w.answer log req = .response resp) (hr : returned resp = true) :
    followFrom w op body hops req ib log = (.ok resp, log ++ [req]) := by
  cases hops <;> simp only [followFrom, hop_returned w op body req ib log resp h hr]

theorem followFrom_failed (w : World) (op : Bytes) (body : Option (Bytes × Bytes))
    (hops : Nat) (req : Attempt) (ib : Bool) (log : List Attempt) (err : Bytes)
    (h : w.answer log req = .failed err) :
    followFrom w op body hops req ib log
      = (.error (w.errorText (.send op req.url err)), log ++ [req]) := by
  cases hops <;> simp only [followFrom, hop_failed w op body req ib log err h]

theorem generateCall_log (w : World) (log : List Attempt) (req : GenerateRequest) :
    ∃ more, (generateCall w log req).2 = log ++ generateRequest req :: more :=
  followFrom_log w _ _ 9 _ true log

theorem tagsCall_log (w : World) (log : List Attempt) :
    ∃ more, (tagsCall w log).2 = log ++ tagsRequest :: more :=
  followFrom_log w _ _ 9 _ true log

theorem generateCall_returned (w : World) (log : List Attempt) (req : GenerateRequest)
    (resp : Response) (h : w.answer log (generateRequest req) = .response resp)
    (hr : returned resp = true) :
    generateCall w log req = (.ok resp, log ++ [generateRequest req]) :=
  followFrom_returned w _ _ 9 _ true log resp h hr

theorem tagsCall_returned (w : World) (log : List Attempt) (resp : Response)
    (h : w.answer log tagsRequest = .response resp) (hr : returned resp = true) :
    tagsCall w log = (.ok resp, log ++ [tagsRequest]) :=
  followFrom_returned w _ _ 9 _ true log resp h hr

theorem generateCall_failed (w : World) (log : List Attempt) (req : GenerateRequest)
    (err : Bytes) (h : w.answer log (generateRequest req) = .failed err) :
    generateCall w log req
      = (.error (w.errorText (.send (utf8 "Post") (utf8 "http://localhost:11434/api/generate")
          err)), log ++ [generateRequest req]) :=
  followFrom_failed w _ _ 9 _ true log err h

theorem tagsCall_failed (w : World) (log : List Attempt) (err : Bytes)
    (h : w.answer log tagsRequest = .failed err) :
    tagsCall w log
      = (.error (w.errorText (.send (utf8 "Get") (utf8 "http://localhost:11434/api/tags") err)),
         log ++ [tagsRequest]) :=
  followFrom_failed w _ _ 9 _ true log err h

/-! ## The handlers, case by case -/

theorem Error_fresh (msg : Bytes) (code : Nat) :
    Error .fresh msg code = ⟨errorHeader, true, code, errorHeader, msg ++ utf8 "\n"⟩ := by
  rfl

theorem Copy_wrote (chunks : List Bytes) : ∀ w : ResponseWriter, w.wroteHeader = true →
    Copy w chunks = { w with body := w.body ++ chunks.flatten } := by
  induction chunks with
  | nil => intro w _; simp [Copy]
  | cons c cs ih =>
    intro w hw
    have h1 : Copy w (c :: cs) = Copy (w.Write c) cs := rfl
    have h2 : w.Write c = { w with body := w.body ++ c } := by
      simp [ResponseWriter.Write, hw]
    rw [h1, h2, ih _ (by simpa using hw)]
    simp [List.append_assoc]

theorem relay_fresh (chunks : List Bytes) :
    Copy ((ResponseWriter.fresh.SetHeader (utf8 "Content-Type")
      (utf8 "application/json")).WriteHeader StatusOK) chunks
      = ⟨jsonHeader, true, 200, jsonHeader, chunks.flatten⟩ := by
  rw [Copy_wrote _ _ rfl]
  rfl

theorem Marshal_ollamaReq (req : GenerateRequest) :
    Marshal (ollamaReq req) = .ok (payload req) := by
  have hs : sortByKey (ollamaReq req) = ollamaReq req := rfl
  have hm : utf8 "\x7b\"model\":" = 0x7B :: appendString (utf8 "model") ++ [0x3A] := by decide
  have hp : utf8 ",\"prompt\":" = 0x2C :: appendString (utf8 "prompt") ++ [0x3A] := by decide
  have hc : utf8 "\x7d" = [0x7D] := by decide
  simp only [Marshal, hs, ollamaReq, encodeMembers, encodeValue, payload, hm, hp, hc]
  simp [List.append_assoc]

theorem handleGenerate_decoded (world : World) (log : List Attempt) (w : ResponseWriter)
    (r : Request) (req : GenerateRequest) (h : Decode r.Body = .ok req) :
    handleGenerate world log w r =
      match generateCall world log req with
      | (.error err, log1) =>
        (Error w (utf8 "Failed to call Ollama: " ++ err) StatusInternalServerError, log1)
      | (.ok resp, log1) =>
        (Copy ((w.SetHeader (utf8 "Content-Type") (utf8 "application/json")).WriteHeader StatusOK)
          resp.Body, log1) := by
  simp only [handleGenerate, h, Marshal_ollamaReq, generateCall]

theorem handleGenerate_undecoded (world : World) (log : List Attempt) (w : ResponseWriter)
    (r : Request) (e : DecodeError) (h : Decode r.Body = .error e) :
    handleGenerate world log w r
      = (Error w (utf8 "Invalid request body") StatusBadRequest, log) := by
  simp only [handleGenerate, h]

theorem handleGenerate_log (world : World) (log : List Attempt) (w : ResponseWriter)
    (r : Request) (req : GenerateRequest) (h : Decode r.Body = .ok req) :
    (handleGenerate world log w r).2 = (generateCall world log req).2 := by
  rw [handleGenerate_decoded world log w r req h]
  split <;> (rename_i hc; rw [hc])

theorem handleListModels_log (world : World) (log : List Attempt) (w : ResponseWriter)
    (r : Request) : (handleListModels world log w r).2 = (tagsCall world log).2 := by
  simp only [handleListModels, tagsCall]
  split <;> (rename_i hc; rw [hc])

theorem handleGenerate_failed (world : World) (log : List Attempt) (r : Request)
    (req : GenerateRequest) (err : Bytes) (hd : Decode r.Body = .ok req)
    (hu : (generateCall world log req).1 = .error err) :
    handleGenerate world log .fresh r
      = (⟨errorHeader, true, 500, errorHeader, utf8 "Failed to call Ollama: " ++ err ++ utf8 "\n"⟩,
         (generateCall world log req).2) := by
  rw [handleGenerate_decoded world log .fresh r req hd]
  cases hc : generateCall world log req with
  | mk res log1 =>
    rw [hc] at hu
    simp only [] at hu
    subst hu
    show (Error _ _ _, _) = _
    rw [Error_fresh]
    simp [StatusInternalServerError, List.append_assoc]

theorem handleGenerate_relayed (world : World) (log : List Attempt) (r : Request)
    (req : GenerateRequest) (resp : Response) (hd : Decode r.Body = .ok req)
    (hu : (generateCall world log req).1 = .ok resp) :
    handleGenerate world log .fresh r
      = (⟨jsonHeader, true, 200, jsonHeader, resp.Body.flatten⟩,
         (generateCall world log req).2) := by
  rw [handleGenerate_decoded world log .fresh r req hd]
  cases hc : generateCall world log req with
  | mk res log1 =>
    rw [hc] at hu
    simp only [] at hu
    subst hu
    show (Copy _ _, _) = _
    rw [relay_fresh]

theorem handleGenerate_rejected (world : World) (log : List Attempt) (r : Request)
    (e : DecodeError) (hd : Decode r.Body = .error e) :
    handleGenerate world log .fresh r
      = (⟨errorHeader, true, 400, errorHeader, utf8 "Invalid request body\n"⟩, log) := by
  rw [handleGenerate_undecoded world log .fresh r e hd, Error_fresh]
  rfl

theorem handleListModels_failed (world : World) (log : List Attempt) (r : Request)
    (err : Bytes) (hu : (tagsCall world log).1 = .error err) :
    handleListModels world log .fresh r
      = (⟨errorHeader, true, 500, errorHeader, utf8 "Failed to call Ollama: " ++ err ++ utf8 "\n"⟩,
         (tagsCall world log).2) := by
  simp only [handleListModels]
  cases hc : tagsCall world log with
  | mk res log1 =>
    rw [hc] at hu
    simp only [] at hu
    subst hu
    unfold tagsCall at hc
    rw [hc]
    show (Error _ _ _, _) = _
    rw [Error_fresh]
    simp [StatusInternalServerError, List.append_assoc]

theorem handleListModels_relayed (world : World) (log : List Attempt) (r : Request)
    (resp : Response) (hu : (tagsCall world log).1 = .ok resp) :
    handleListModels world log .fresh r
      = (⟨jsonHeader, true, 200, jsonHeader, resp.Body.flatten⟩, (tagsCall world log).2) := by
  simp only [handleListModels]
  cases hc : tagsCall world log with
  | mk res log1 =>
    rw [hc] at hu
    simp only [] at hu
    subst hu
    unfold tagsCall at hc
    rw [hc]
    show (Copy _ _, _) = _
    rw [relay_fresh]

/-! ## Storing a value, and dispatch, case by case -/

theorem storeMember_flag (st : GenerateRequest × Bool) (kv : Bytes × JSONValue) :
    (storeMember st kv).2 = (st.2 || !((findField kv.1).isNone || storableMember kv.2)) := by
  obtain ⟨k, v⟩ := kv
  unfold storeMember
  cases hf : findField k with
  | none => simp
  | some f =>
    cases v <;> cases f <;> simp [storableMember]

theorem foldl_storeMember_flag (members : List (Bytes × JSONValue)) :
    ∀ st : GenerateRequest × Bool,
      (members.foldl storeMember st).2
        = (st.2 || !(members.all fun kv => (findField kv.1).isNone || storableMember kv.2)) := by
  induction members with
  | nil => intro st; simp
  | cons kv rest ih =>
    intro st
    rw [List.foldl_cons, ih, storeMember_flag]
    simp only [List.all_cons]
    cases st.2 <;> cases ((findField kv.1).isNone || storableMember kv.2) <;> simp

theorem unmarshal_ok_iff (v : JSONValue) : (∃ req, unmarshal v = .ok req) ↔ storable v = true := by
  cases v with
  | null => simp [unmarshal, storable]
  | object members =>
    simp only [unmarshal, storable]
    rw [foldl_storeMember_flag]
    cases h : (members.all fun kv => (findField kv.1).isNone || storableMember kv.2) <;> simp
  | bool b => simp [unmarshal, storable]
  | number l => simp [unmarshal, storable]
  | string s => simp [unmarshal, storable]
  | array a => simp [unmarshal, storable]

theorem Decode_ok_iff (body : Bytes) :
    (∃ req, Decode body = .ok req) ↔
      ∃ v rest, scanValue (2 * body.length + 1) 0 body = .ok v rest ∧ storable v = true := by
  unfold Decode
  cases h : scanValue (2 * body.length + 1) 0 body with
  | ok v rest => simp [unmarshal_ok_iff]
  | invalid => simp
  | outOfFuel => simp

theorem Decode_cases (body : Bytes) :
    (∃ req, Decode body = .ok req) ∨ (∃ e, Decode body = .error e) := by
  cases h : Decode body with
  | ok req => exact Or.inl ⟨req, rfl⟩
  | error e => exact Or.inr ⟨e, rfl⟩

theorem handleGenerate_status (w : World) (log : List Attempt) (r : Request) :
    (∃ e, Decode r.Body = .error e ∧
      handleGenerate w log .fresh r
        = (⟨errorHeader, true, 400, errorHeader, utf8 "Invalid request body\n"⟩, log)) ∨
    (∃ req err, Decode r.Body = .ok req ∧ (generateCall w log req).1 = .error err ∧
      handleGenerate w log .fresh r
        = (⟨errorHeader, true, 500, errorHeader,
            utf8 "Failed to call Ollama: " ++ err ++ utf8 "\n"⟩, (generateCall w log req).2)) ∨
    (∃ req resp, Decode r.Body = .ok req ∧ (generateCall w log req).1 = .ok resp ∧
      handleGenerate w log .fresh r
        = (⟨jsonHeader, true, 200, jsonHeader, resp.Body.flatten⟩,
           (generateCall w log req).2)) := by
  rcases Decode_cases r.Body with ⟨req, hd⟩ | ⟨e, hd⟩
  · right
    cases hu : (generateCall w log req).1 with
    | error err => exact Or.inl ⟨req, err, hd, hu, handleGenerate_failed w log r req err hd hu⟩
    | ok resp => exact Or.inr ⟨req, resp, hd, hu, handleGenerate_relayed w log r req resp hd hu⟩
  · exact Or.inl ⟨e, hd, handleGenerate_rejected w log r e hd⟩

theorem Router_Match_setupRoutes (r : Request) :
    Router.Match setupRoutes r =
      if r.Path = utf8 "/generate" then
        if r.Method = utf8 "POST" then (true, ⟨some handleGenerate, .none⟩)
        else (false, ⟨none, .methodMismatch⟩)
      else if r.Path = utf8 "/models" then
        if r.Method = utf8 "GET" then (true, ⟨some handleListModels, .none⟩)
        else (false, ⟨none, .methodMismatch⟩)
      else (false, ⟨none, .notFound⟩) := by
  have hne : utf8 "/generate" ≠ utf8 "/models" := by decide
  by_cases hg : r.Path = utf8 "/generate"
  · have hm' : r.Path ≠ utf8 "/models" := by rw [hg]; exact hne
    by_cases hp : r.Method = utf8 "POST"
    · simp [Router.Match, setupRoutes, HandleFunc, matchRoutes, Route.Match, matchAll,
        Matcher.Match, hg, hp]
    · simp [Router.Match, setupRoutes, HandleFunc, matchRoutes, Route.Match, matchAll,
        Matcher.Match, hg, hp, hne]
  · by_cases hm : r.Path = utf8 "/models"
    · by_cases hp : r.Method = utf8 "GET"
      · simp [Router.Match, setupRoutes, HandleFunc, matchRoutes, Route.Match, matchAll,
          Matcher.Match, hm, hp, hne.symm]
      · simp [Router.Match, setupRoutes, HandleFunc, matchRoutes, Route.Match, matchAll,
          Matcher.Match, hm, hp, hne.symm]
    · simp [Router.Match, setupRoutes, HandleFunc, matchRoutes, Route.Match, matchAll,
        Matcher.Match, hg, hm]

theorem ServeHTTP_setupRoutes (world : World) (log : List Attempt) (w : ResponseWriter)
    (r : Request) :
    ServeHTTP setupRoutes world log w r =
      if cleanPath r.Path ≠ r.Path then
        ((w.SetHeader (utf8 "Location") (URLString r (cleanPath r.Path))).WriteHeader 301, log)
      else if r.Path = utf8 "/generate" then
        if r.Method = utf8 "POST" then handleGenerate world log w r
        else (w.WriteHeader 405, log)
      else if r.Path = utf8 "/models" then
        if r.Method = utf8 "GET" then handleListModels world log w r
        else (w.WriteHeader 405, log)
      else (Error w (utf8 "404 page not found") 404, log) := by
  unfold ServeHTTP
  rw [Router_Match_setupRoutes]
  by_cases hc : cleanPath r.Path = r.Path
  · have hb : ¬ ((cleanPath r.Path != r.Path) = true) := by simp [hc]
    rw [if_neg hb, if_neg (not_not.mpr hc)]
    by_cases hg : r.Path = utf8 "/generate"
    · rw [if_pos hg, if_pos hg]
      by_cases hp : r.Method = utf8 "POST"
      · rw [if_pos hp, if_pos hp]
      · rw [if_neg hp, if_neg hp]; rfl
    · rw [if_neg hg, if_neg hg]
      by_cases hm : r.Path = utf8 "/models"
      · rw [if_pos hm, if_pos hm]
        by_cases hp : r.Method = utf8 "GET"
        · rw [if_pos hp, if_pos hp]
        · rw [if_neg hp, if_neg hp]; rfl
      · rw [if_neg hm, if_neg hm]; rfl
  · have hb : (cleanPath r.Path != r.Path) = true := by simp [hc]
    rw [if_pos hb, if_pos hc]; rfl

/-! ## The properties -/

/-- C1, counterexample: the upstream answers the POST of `handleGenerate`
with a 307 redirect, and the client sends the payload again to the address in
`Location`: one inbound request whose body decodes gives two upstream
requests, not exactly one. -/
theorem handleGenerate_follows_redirect :
    Decode (utf8 "\x7b\"model\":\"llama2\",\"prompt\":\"hello\"\x7d")
      = .ok ⟨utf8 "llama2", utf8 "hello"⟩ ∧
    (handleGenerate (worldRedirecting (utf8 "http://localhost:11434/api/v2/generate")) []
        .fresh ⟨utf8 "POST", utf8 "/generate", [], false,
          utf8 "\x7b\"model\":\"llama2\",\"prompt\":\"hello\"\x7d"⟩).2
      = [⟨utf8 "POST", utf8 "http://localhost:11434/api/generate",
          some (utf8 "application/json", utf8 "\x7b\"model\":\"llama2\",\"prompt\":\"hello\"\x7d")⟩,
         ⟨utf8 "POST", utf8 "http://localhost:11434/api/v2/generate",
          some (utf8 "application/json",
            utf8 "\x7b\"model\":\"llama2\",\"prompt\":\"hello\"\x7d")⟩] := by
  decide

/-- C1, amended: when the request body decodes to a `GenerateRequest` with
model `m` and prompt `p`, `handleGenerate` makes one `client.Post` call, to
`http://localhost:11434/api/generate` with content type `application/json`.
Its body is `json.Marshal` of the map with the two entries `"model": m` and
`"prompt": p`; that text is `{"model":<m quoted>,"prompt":<p quoted>}`, it
scans, with nothing left over, as the JSON object with exactly the two
members `model`, the string `m`, and `prompt`, the string `p`, and it decodes
to `m` and `p` again.  The requests the run sends upstream are those of that
one call: the first is the POST with that body, and it is the only one when
the upstream answers it with a response the client returns, or when the
attempt fails with an error the transport does not retry.  The requests
depend on the incoming body through `m` and `p` only: any other body that
decodes to the same `m` and `p`, whatever further members it has, gives the
same requests. -/
theorem handleGenerate_posts_model_and_prompt (w : World) (log : List Attempt)
    (wr : ResponseWriter) (r : Request) (m p : Bytes) (h : Decode r.Body = .ok ⟨m, p⟩) :
    Marshal [(utf8 "model", .string m), (utf8 "prompt", .string p)] = .ok (payload ⟨m, p⟩) ∧
    payload ⟨m, p⟩
      = utf8 "\x7b\"model\":" ++ appendString m ++ utf8 ",\"prompt\":" ++ appendString p
          ++ utf8 "\x7d" ∧
    scanValue (2 * (payload ⟨m, p⟩).length + 1) 0 (payload ⟨m, p⟩)
      = .ok (.object [(utf8 "model", .string m), (utf8 "prompt", .string p)]) [] ∧
    Decode (payload ⟨m, p⟩) = .ok ⟨m, p⟩ ∧
    (handleGenerate w log wr r).2
      = (Post w log (utf8 "http://localhost:11434/api/generate") (utf8 "application/json")
          (payload ⟨m, p⟩)).2 ∧
    (∃ more, (handleGenerate w log wr r).2
      = log ++ ⟨utf8 "POST", utf8 "http://localhost:11434/api/generate",
          some (utf8 "application/json", payload ⟨m, p⟩)⟩ :: more) ∧
    (∀ resp, w.answer log (generateRequest ⟨m, p⟩) = .response resp → returned resp = true →
      (handleGenerate w log wr r).2 = log ++ [generateRequest ⟨m, p⟩]) ∧
    (∀ err, w.answer log (generateRequest ⟨m, p⟩) = .failed err →
      (handleGenerate w log wr r).2 = log ++ [generateRequest ⟨m, p⟩]) ∧
    (∀ r2 : Request, Decode r2.Body = .ok ⟨m, p⟩ →
      (handleGenerate w log wr r2).2 = (handleGenerate w log wr r).2) := by
  have hv := Decode_valid r.Body ⟨m, p⟩ h
  have hl := handleGenerate_log w log wr r ⟨m, p⟩ h
  refine ⟨Marshal_ollamaReq ⟨m, p⟩, rfl, scanValue_payload_full ⟨m, p⟩ hv.1 hv.2,
    Decode_payload ⟨m, p⟩ hv.1 hv.2, hl, ?_, ?_, ?_, ?_⟩
  · rw [hl]
    exact generateCall_log w log ⟨m, p⟩
  · intro resp ha hr
    rw [hl, generateCall_returned w log ⟨m, p⟩ resp ha hr]
  · intro err ha
    rw [hl, generateCall_failed w log ⟨m, p⟩ err ha]
  · intro r2 h2
    rw [hl, handleGenerate_log w log wr r2 ⟨m, p⟩ h2]

/-- Witness of C1 (amended): a body with a third member `"stream"` decodes to
model `llama2` and prompt `hello`; the payload scans as the two-member
object, and against an upstream that answers 200 the one request sent is the
POST of `{"model":"llama2","prompt":"hello"}`. -/
theorem handleGenerate_posts_model_and_prompt_witness :
    Decode (utf8 "\x7b\"model\":\"llama2\",\"prompt\":\"hello\",\"stream\":true\x7d")
        = .ok ⟨utf8 "llama2", utf8 "hello"⟩ ∧
    scanValue (2 * (payload ⟨utf8 "llama2", utf8 "hello"⟩).length + 1) 0
        (payload ⟨utf8 "llama2", utf8 "hello"⟩)
      = .ok (.object [(utf8 "model", .string (utf8 "llama2")),
          (utf8 "prompt", .string (utf8 "hello"))]) [] ∧
    (handleGenerate (worldAnswering ⟨200, [], [utf8 "\x7b\"response\":\"hi there\"\x7d"]⟩) []
        .fresh ⟨utf8 "POST", utf8 "/generate", [], false,
          utf8 "\x7b\"model\":\"llama2\",\"prompt\":\"hello\",\"stream\":true\x7d"⟩).2
      = [] ++ [generateRequest ⟨utf8 "llama2", utf8 "hello"⟩] ∧
    generateRequest ⟨utf8 "llama2", utf8 "hello"⟩
      = ⟨utf8 "POST", utf8 "http://localhost:11434/api/generate",
          some (utf8 "application/json",
            utf8 "\x7b\"model\":\"llama2\",\"prompt\":\"hello\"\x7d")⟩ :=
  ⟨by decide,
   (handleGenerate_posts_model_and_prompt
      (worldAnswering ⟨200, [], [utf8 "\x7b\"response\":\"hi there\"\x7d"]⟩) [] .fresh
      ⟨utf8 "POST", utf8 "/generate", [], false,
        utf8 "\x7b\"model\":\"llama2\",\"prompt\":\"hello\",\"stream\":true\x7d"⟩
      (utf8 "llama2") (utf8 "hello") (by decide)).2.2.1,
   (handleGenerate_posts_model_and_prompt
      (worldAnswering ⟨200, [], [utf8 "\x7b\"response\":\"hi there\"\x7d"]⟩) [] .fresh
      ⟨utf8 "POST", utf8 "/generate", [], false,
        utf8 "\x7b\"model\":\"llama2\",\"prompt\":\"hello\",\"stream\":true\x7d"⟩
      (utf8 "llama2") (utf8 "hello") (by decide)).2.2.2.2.2.2.1
      ⟨200, [], [utf8 "\x7b\"response\":\"hi there\"\x7d"]⟩ rfl (by decide),
   by decide⟩

/-- C2: when the client call succeeds with a response whose body is read as
the chunks `resp.Body`, the caller of `handleGenerate` (for a body that
decodes) and of `handleListModels` gets status 200, the header
`Content-Type: application/json` sent with the status line, and a body equal
to the concatenation of the chunks, byte for byte. -/
theorem relay_is_verbatim (w : World) (log : List Attempt) (r : Request) (resp : Response) :
    (∀ req, Decode r.Body = .ok req →
      (Post w log (utf8 "http://localhost:11434/api/generate") (utf8 "application/json")
        (payload req)).1 = .ok resp →
      (handleGenerate w log .fresh r).1
        = { header := [(utf8 "Content-Type", utf8 "application/json")], wroteHeader := true,
            status := 200, sent := [(utf8 "Content-Type", utf8 "application/json")],
            body := resp.Body.flatten }) ∧
    ((Get w log (utf8 "http://localhost:11434/api/tags")).1 = .ok resp →
      (handleListModels w log .fresh r).1
        = { header := [(utf8 "Content-Type", utf8 "application/json")], wroteHeader := true,
            status := 200, sent := [(utf8 "Content-Type", utf8 "application/json")],
            body := resp.Body.flatten }) := by
  constructor
  · intro req hd hu
    rw [handleGenerate_relayed w log r req resp hd hu]
    rfl
  · intro hu
    rw [handleListModels_relayed w log r resp hu]
    rfl

/-- Witness of C2: the scenario of the specification.  The request
`{"model":"llama2","prompt":"hello"}` with an upstream answering
`{"response":"hi there"}` yields status 200, the JSON content type and that
body, from either handler. -/
theorem relay_is_verbatim_witness :
    (handleGenerate (worldAnswering ⟨200, [], [utf8 "\x7b\"response\":\"hi there\"\x7d"]⟩) []
        .fresh ⟨utf8 "POST", utf8 "/generate", [], false,
          utf8 "\x7b\"model\":\"llama2\",\"prompt\":\"hello\"\x7d"⟩).1
      = { header := [(utf8 "Content-Type", utf8 "application/json")], wroteHeader := true,
          status := 200, sent := [(utf8 "Content-Type", utf8 "application/json")],
          body := utf8 "\x7b\"response\":\"hi there\"\x7d" } ∧
    (handleListModels (worldAnswering ⟨200, [], [utf8 "\x7b\"response\":\"hi there\"\x7d"]⟩) []
        .fresh ⟨utf8 "GET", utf8 "/models", [], false, []⟩).1
      = { header := [(utf8 "Content-Type", utf8 "application/json")], wroteHeader := true,
          status := 200, sent := [(utf8 "Content-Type", utf8 "application/json")],
          body := utf8 "\x7b\"response\":\"hi there\"\x7d" } :=
  ⟨(relay_is_verbatim (worldAnswering ⟨200, [], [utf8 "\x7b\"response\":\"hi there\"\x7d"]⟩) []
      ⟨utf8 "POST", utf8 "/generate", [], false,
        utf8 "\x7b\"model\":\"llama2\",\"prompt\":\"hello\"\x7d"⟩
      ⟨200, [], [utf8 "\x7b\"response\":\"hi there\"\x7d"]⟩).1
      ⟨utf8 "llama2", utf8 "hello"⟩ (by decide) rfl,
   (relay_is_verbatim (worldAnswering ⟨200, [], [utf8 "\x7b\"response\":\"hi there\"\x7d"]⟩) []
      ⟨utf8 "GET", utf8 "/models", [], false, []⟩
      ⟨200, [], [utf8 "\x7b\"response\":\"hi there\"\x7d"]⟩).2 rfl⟩

/-- C3: when the request body fails to decode into a `GenerateRequest`,
`handleGenerate` replies with status 400 and the plain-text line
`Invalid request body`, and sends nothing upstream. -/
theorem handleGenerate_bad_request (w : World) (log : List Attempt) (r : Request)
    (e : DecodeError) (h : Decode r.Body = .error e) :
    handleGenerate w log .fresh r
      = ({ header := [(utf8 "Content-Type", utf8 "text/plain; charset=utf-8"),
                      (utf8 "X-Content-Type-Options", utf8 "nosniff")],
           wroteHeader := true, status := 400,
           sent := [(utf8 "Content-Type", utf8 "text/plain; charset=utf-8"),
                    (utf8 "X-Content-Type-Options", utf8 "nosniff")],
           body := utf8 "Invalid request body\n" }, log) := by
  rw [handleGenerate_undecoded w log .fresh r e h, Error_fresh]
  rfl

/-- Witness of C3: the body `not json` is rejected with 400 and nothing is
sent upstream. -/
theorem handleGenerate_bad_request_witness :
    Decode (utf8 "not json") = .error .malformed ∧
    handleGenerate (worldAnswering ⟨200, [], []⟩) [] .fresh
        ⟨utf8 "POST", utf8 "/generate", [], false, utf8 "not json"⟩
      = ({ header := [(utf8 "Content-Type", utf8 "text/plain; charset=utf-8"),
                      (utf8 "X-Content-Type-Options", utf8 "nosniff")],
           wroteHeader := true, status := 400,
           sent := [(utf8 "Content-Type", utf8 "text/plain; charset=utf-8"),
                    (utf8 "X-Content-Type-Options", utf8 "nosniff")],
           body := utf8 "Invalid request body\n" }, []) :=
  ⟨by decide,
   handleGenerate_bad_request (worldAnswering ⟨200, [], []⟩) []
     ⟨utf8 "POST", utf8 "/generate", [], false, utf8 "not json"⟩ .malformed (by decide)⟩

/-- C4, counterexample: the body `{"model":1}` is syntactically valid JSON,
yet it does not decode: storing the number into the string field `Model` is a
type error, and `handleGenerate` rejects the request with status 400 without
sending anything upstream. -/
theorem valid_json_rejected :
    Valid (utf8 "\x7b\"model\":1\x7d") = true ∧
    Decode (utf8 "\x7b\"model\":1\x7d") = .error .mismatch ∧
    handleGenerate (worldAnswering ⟨200, [], []⟩) [] .fresh
        ⟨utf8 "POST", utf8 "/generate", [], false, utf8 "\x7b\"model\":1\x7d"⟩
      = ({ header := [(utf8 "Content-Type", utf8 "text/plain; charset=utf-8"),
                      (utf8 "X-Content-Type-Options", utf8 "nosniff")],
           wroteHeader := true, status := 400,
           sent := [(utf8 "Content-Type", utf8 "text/plain; charset=utf-8"),
                    (utf8 "X-Content-Type-Options", utf8 "nosniff")],
           body := utf8 "Invalid request body\n" }, []) := by
  decide

/-- C4, amended: `handleGenerate` returns 400 exactly when the body has no
first JSON value that can be scanned and stored into a `GenerateRequest`.  A
value can be stored when it is `null` or an object in which every member whose
key names `model` or `prompt` (in any letter case) holds a string or `null`;
such a body decodes and is forwarded upstream: the requests sent are those of
the one client call for the decoded request, the first of them the POST of
its payload, and the only one when the upstream answers it with a response
the client returns or the attempt fails with an error the transport does not
retry.  The body `{}` decodes with model and prompt empty. -/
theorem handleGenerate_400_iff_not_storable (w : World) (log : List Attempt) (r : Request) :
    ((handleGenerate w log .fresh r).1.status = 400 ↔
      ¬ ∃ v rest, scanValue (2 * r.Body.length + 1) 0 r.Body = .ok v rest ∧ storable v = true) ∧
    (∀ v rest, scanValue (2 * r.Body.length + 1) 0 r.Body = .ok v rest → storable v = true →
      ∃ req, Decode r.Body = .ok req ∧
        (handleGenerate w log .fresh r).2 = (generateCall w log req).2 ∧
        (∃ more, (handleGenerate w log .fresh r).2 = log ++ generateRequest req :: more) ∧
        (∀ resp, w.answer log (generateRequest req) = .response resp → returned resp = true →
          (handleGenerate w log .fresh r).2 = log ++ [generateRequest req]) ∧
        (∀ err, w.answer log (generateRequest req) = .failed err →
          (handleGenerate w log .fresh r).2 = log ++ [generateRequest req])) ∧
    Decode (utf8 "\x7b\x7d") = .ok ⟨[], []⟩ := by
  refine ⟨?_, ?_, by decide⟩
  · rw [← Decode_ok_iff]
    rcases handleGenerate_status w log r with ⟨e, hd, h⟩ | ⟨req, err, hd, _, h⟩ |
      ⟨req, resp, hd, _, h⟩
    · rw [h]
      simp [hd]
    · rw [h]
      simp [hd]
    · rw [h]
      simp [hd]
  · intro v rest hs hst
    obtain ⟨req, hd⟩ := (Decode_ok_iff r.Body).mpr ⟨v, rest, hs, hst⟩
    have hl := handleGenerate_log w log .fresh r req hd
    refine ⟨req, hd, hl, ?_, ?_, ?_⟩
    · rw [hl]
      exact generateCall_log w log req
    · intro resp ha hr
      rw [hl, generateCall_returned w log req resp ha hr]
    · intro err ha
      rw [hl, generateCall_failed w log req err ha]

/-- Witness of C4 (amended): the body `{}` scans to an empty object, which
can be stored, so it decodes and the POST for the decoded request goes
upstream. -/
theorem handleGenerate_400_iff_not_storable_witness :
    ∃ req, Decode (utf8 "\x7b\x7d") = .ok req ∧
      (∃ more, (handleGenerate (worldAnswering ⟨200, [], []⟩) [] .fresh
          ⟨utf8 "POST", utf8 "/generate", [], false, utf8 "\x7b\x7d"⟩).2
        = [] ++ generateRequest req :: more) :=
  match (handleGenerate_400_iff_not_storable (worldAnswering ⟨200, [], []⟩) []
    ⟨utf8 "POST", utf8 "/generate", [], false, utf8 "\x7b\x7d"⟩).2.1 (.object []) [] rfl rfl with
  | ⟨req, hd, _, hm, _⟩ => ⟨req, hd, hm⟩

/-- C5, counterexample: the upstream answers the POST of `handleGenerate`
with a 307 redirect to an address that refuses connections.  The client
follows the redirect, so the one inbound request makes two upstream attempts,
the second of which fails at the transport level, before the handler replies
500. -/
theorem redirect_then_refused_two_attempts :
    handleGenerate
        (worldRedirectingToDead (utf8 "http://localhost:11435/api/generate")
          (utf8 "dial tcp 127.0.0.1:11435: connect: connection refused")) [] .fresh
        ⟨utf8 "POST", utf8 "/generate", [], false,
          utf8 "\x7b\"model\":\"llama2\",\"prompt\":\"hello\"\x7d"⟩
      = ({ header := [(utf8 "Content-Type", utf8 "text/plain; charset=utf-8"),
                      (utf8 "X-Content-Type-Options", utf8 "nosniff")],
           wroteHeader := true, status := 500,
           sent := [(utf8 "Content-Type", utf8 "text/plain; charset=utf-8"),
                    (utf8 "X-Content-Type-Options", utf8 "nosniff")],
           body := utf8 ("Failed to call Ollama: Post \"http://localhost:11435/api/generate\": "
             ++ "dial tcp 127.0.0.1:11435: connect: connection refused\n") },
         [⟨utf8 "POST", utf8 "http://localhost:11434/api/generate",
            some (utf8 "application/json",
              utf8 "\x7b\"model\":\"llama2\",\"prompt\":\"hello\"\x7d")⟩,
          ⟨utf8 "POST", utf8 "http://localhost:11435/api/generate",
            some (utf8 "application/json",
              utf8 "\x7b\"model\":\"llama2\",\"prompt\":\"hello\"\x7d")⟩]) := by
  decide!

/-- C5, amended: when the client call returns the error `e`, both handlers
reply with status 500 and the plain-text body `Failed to call Ollama: `
followed by the text of `e` and a newline (so no 200 status and no upstream
bytes are written), and the requests sent upstream are those of that one
client call: the handler makes no second call.  When the first attempt of
the call fails with an error `err` the transport does not retry, that attempt
is the only one, and `e` is the text of the `url.Error` around `err`. -/
theorem upstream_error_gives_500 (w : World) (log : List Attempt) (r : Request) (e : Bytes) :
    (∀ req, Decode r.Body = .ok req →
      (Post w log (utf8 "http://localhost:11434/api/generate") (utf8 "application/json")
        (payload req)).1 = .error e →
      handleGenerate w log .fresh r
        = ({ header := [(utf8 "Content-Type", utf8 "text/plain; charset=utf-8"),
                        (utf8 "X-Content-Type-Options", utf8 "nosniff")],
             wroteHeader := true, status := 500,
             sent := [(utf8 "Content-Type", utf8 "text/plain; charset=utf-8"),
                      (utf8 "X-Content-Type-Options", utf8 "nosniff")],
             body := utf8 "Failed to call Ollama: " ++ e ++ utf8 "\n" },
           (Post w log (utf8 "http://localhost:11434/api/generate") (utf8 "application/json")
             (payload req)).2)) ∧
    ((Get w log (utf8 "http://localhost:11434/api/tags")).1 = .error e →
      handleListModels w log .fresh r
        = ({ header := [(utf8 "Content-Type", utf8 "text/plain; charset=utf-8"),
                        (utf8 "X-Content-Type-Options", utf8 "nosniff")],
             wroteHeader := true, status := 500,
             sent := [(utf8 "Content-Type", utf8 "text/plain; charset=utf-8"),
                      (utf8 "X-Content-Type-Options", utf8 "nosniff")],
             body := utf8 "Failed to call Ollama: " ++ e ++ utf8 "\n" },
           (Get w log (utf8 "http://localhost:11434/api/tags")).2)) ∧
    (∀ req err, Decode r.Body = .ok req → w.answer log (generateRequest req) = .failed err →
      handleGenerate w log .fresh r
        = ({ header := [(utf8 "Content-Type", utf8 "text/plain; charset=utf-8"),
                        (utf8 "X-Content-Type-Options", utf8 "nosniff")],
             wroteHeader := true, status := 500,
             sent := [(utf8 "Content-Type", utf8 "text/plain; charset=utf-8"),
                      (utf8 "X-Content-Type-Options", utf8 "nosniff")],
             body := utf8 "Failed to call Ollama: "
               ++ w.errorText (.send (utf8 "Post") (utf8 "http://localhost:11434/api/generate")
                    err) ++ utf8 "\n" },
           log ++ [generateRequest req])) ∧
    (∀ err, w.answer log tagsRequest = .failed err →
      handleListModels w log .fresh r
        = ({ header := [(utf8 "Content-Type", utf8 "text/plain; charset=utf-8"),
                        (utf8 "X-Content-Type-Options", utf8 "nosniff")],
             wroteHeader := true, status := 500,
             sent := [(utf8 "Content-Type", utf8 "text/plain; charset=utf-8"),
                      (utf8 "X-Content-Type-Options", utf8 "nosniff")],
             body := utf8 "Failed to call Ollama: "
               ++ w.errorText (.send (utf8 "Get") (utf8 "http://localhost:11434/api/tags") err)
               ++ utf8 "\n" },
           log ++ [tagsRequest])) := by
  refine ⟨fun req hd hu => handleGenerate_failed w log r req e hd hu,
    fun hu => handleListModels_failed w log r e hu, ?_, ?_⟩
  · intro req err hd ha
    have hc := generateCall_failed w log req err ha
    rw [handleGenerate_failed w log r req _ hd (by rw [hc]), hc]
    rfl
  · intro err ha
    have hc := tagsCall_failed w log err ha
    rw [handleListModels_failed w log r _ (by rw [hc]), hc]
    rfl

/-- Witness of C5 (amended): with the upstream refusing the connection, a
well-formed generate request and a models request both end in status 500
after a single upstream attempt. -/
theorem upstream_error_gives_500_witness :
    ((handleGenerate (worldFailing (utf8 "connection refused")) [] .fresh
        ⟨utf8 "POST", utf8 "/generate", [], false,
          utf8 "\x7b\"model\":\"llama2\",\"prompt\":\"hello\"\x7d"⟩).1.status = 500 ∧
      (handleGenerate (worldFailing (utf8 "connection refused")) [] .fresh
        ⟨utf8 "POST", utf8 "/generate", [], false,
          utf8 "\x7b\"model\":\"llama2\",\"prompt\":\"hello\"\x7d"⟩).2
        = [generateRequest ⟨utf8 "llama2", utf8 "hello"⟩]) ∧
    ((handleListModels (worldFailing (utf8 "connection refused")) [] .fresh
        ⟨utf8 "GET", utf8 "/models", [], false, []⟩).1.body
        = utf8 ("Failed to call Ollama: Get \"http://localhost:11434/api/tags\": "
            ++ "connection refused\n") ∧
      (handleListModels (worldFailing (utf8 "connection refused")) [] .fresh
        ⟨utf8 "GET", utf8 "/models", [], false, []⟩).2 = [tagsRequest]) :=
  ⟨by
    rw [(upstream_error_gives_500 (worldFailing (utf8 "connection refused")) []
      ⟨utf8 "POST", utf8 "/generate", [], false,
        utf8 "\x7b\"model\":\"llama2\",\"prompt\":\"hello\"\x7d"⟩
      (utf8 "Post \"http://localhost:11434/api/generate\": connection refused")).1
      ⟨utf8 "llama2", utf8 "hello"⟩ (by decide) (by decide)]
    exact ⟨rfl, by decide⟩,
   by
    rw [(upstream_error_gives_500 (worldFailing (utf8 "connection refused")) []
      ⟨utf8 "GET", utf8 "/models", [], false, []⟩ []).2.2.2 (utf8 "connection refused") rfl]
    exact ⟨by decide, rfl⟩⟩

/-- C6, counterexample: the request `GET //models` has a path that matches
neither route, and it is not rejected with not-found: the router answers 301
with `Location: /models`.  Nothing is sent upstream. -/
theorem unclean_path_is_redirected :
    utf8 "//models" ≠ utf8 "/generate" ∧ utf8 "//models" ≠ utf8 "/models" ∧
    ServeHTTP setupRoutes (worldAnswering ⟨200, [], []⟩) [] .fresh
        ⟨utf8 "GET", utf8 "//models", [], false, []⟩
      = ({ header := [(utf8 "Location", utf8 "/models")], wroteHeader := true, status := 301,
           sent := [(utf8 "Location", utf8 "/models")], body := [] }, []) := by
  decide

/-- C6, amended: the route table built by `setupRoutes` dispatches
(POST, `/generate`) to `handleGenerate` and (GET, `/models`) to
`handleListModels`.  For every other request no handler runs and nothing is
sent upstream: a path that is not in canonical form is answered 301 with an
empty body and a `Location` that is the request URL with the cleaned path,
the path percent-escaped and the query kept; a canonical path that is
`/generate` or `/models` is answered 405 with an empty body; any other
canonical path is answered 404 with the line `404 page not found`. -/
theorem setupRoutes_dispatch (w : World) (log : List Attempt) (r : Request) :
    (r.Method = utf8 "POST" → r.Path = utf8 "/generate" →
      ServeHTTP setupRoutes w log .fresh r = handleGenerate w log .fresh r) ∧
    (r.Method = utf8 "GET" → r.Path = utf8 "/models" →
      ServeHTTP setupRoutes w log .fresh r = handleListModels w log .fresh r) ∧
    (¬ (r.Method = utf8 "POST" ∧ r.Path = utf8 "/generate") →
      ¬ (r.Method = utf8 "GET" ∧ r.Path = utf8 "/models") →
      (cleanPath r.Path ≠ r.Path →
        ServeHTTP setupRoutes w log .fresh r
          = ({ header := [(utf8 "Location",
                 escape (cleanPath r.Path)
                   ++ (if r.ForceQuery || r.RawQuery != [] then 0x3F :: r.RawQuery else []))],
               wroteHeader := true, status := 301,
               sent := [(utf8 "Location",
                 escape (cleanPath r.Path)
                   ++ (if r.ForceQuery || r.RawQuery != [] then 0x3F :: r.RawQuery else []))],
               body := [] }, log)) ∧
      (cleanPath r.Path = r.Path → (r.Path = utf8 "/generate" ∨ r.Path = utf8 "/models") →
        ServeHTTP setupRoutes w log .fresh r
          = ({ header := [], wroteHeader := true, status := 405, sent := [], body := [] },
             log)) ∧
      (cleanPath r.Path = r.Path → r.Path ≠ utf8 "/generate" → r.Path ≠ utf8 "/models" →
        ServeHTTP setupRoutes w log .fresh r
          = ({ header := [(utf8 "Content-Type", utf8 "text/plain; charset=utf-8"),
                          (utf8 "X-Content-Type-Options", utf8 "nosniff")],
               wroteHeader := true, status := 404,
               sent := [(utf8 "Content-Type", utf8 "text/plain; charset=utf-8"),
                        (utf8 "X-Content-Type-Options", utf8 "nosniff")],
               body := utf8 "404 page not found\n" }, log))) := by
  have hcg : cleanPath (utf8 "/generate") = utf8 "/generate" := by decide
  have hcm : cleanPath (utf8 "/models") = utf8 "/models" := by decide
  have hne : utf8 "/models" ≠ utf8 "/generate" := by decide
  refine ⟨?_, ?_, ?_⟩
  · intro hm hp
    rw [ServeHTTP_setupRoutes, hp, if_neg (not_not.mpr hcg), if_pos rfl, if_pos hm]
  · intro hm hp
    rw [ServeHTTP_setupRoutes, hp, if_neg (not_not.mpr hcm), if_neg hne, if_pos rfl, if_pos hm]
  · intro h1 h2
    rw [ServeHTTP_setupRoutes]
    refine ⟨?_, ?_, ?_⟩
    · intro hc
      rw [if_pos hc]
      rfl
    · intro hc hp
      rw [if_neg (not_not.mpr hc)]
      rcases hp with hg | hp
      · have hm : ¬ r.Method = utf8 "POST" := fun hm => h1 ⟨hm, hg⟩
        rw [if_pos hg, if_neg hm]
        rfl
      · have hg : ¬ r.Path = utf8 "/generate" := by rw [hp]; exact hne
        have hm : ¬ r.Method = utf8 "GET" := fun hm => h2 ⟨hm, hp⟩
        rw [if_neg hg, if_pos hp, if_neg hm]
        rfl
    · intro hc hg hp
      rw [if_neg (not_not.mpr hc), if_neg hg, if_neg hp, Error_fresh]
      rfl

/-- Witness of C6 (amended): `POST /generate` runs `handleGenerate`,
`GET /models` runs `handleListModels`, `DELETE /models` is answered 405,
`GET /nothing` is answered 404, and `GET //a b?x=1` is answered 301 with
`Location: /a%20b?x=1`, the last three with nothing sent upstream. -/
theorem setupRoutes_dispatch_witness :
    ServeHTTP setupRoutes (worldAnswering ⟨200, [], []⟩) [] .fresh
        ⟨utf8 "POST", utf8 "/generate", [], false, utf8 "\x7b\x7d"⟩
      = handleGenerate (worldAnswering ⟨200, [], []⟩) [] .fresh
        ⟨utf8 "POST", utf8 "/generate", [], false, utf8 "\x7b\x7d"⟩ ∧
    ServeHTTP setupRoutes (worldAnswering ⟨200, [], []⟩) [] .fresh
        ⟨utf8 "GET", utf8 "/models", [], false, []⟩
      = handleListModels (worldAnswering ⟨200, [], []⟩) [] .fresh
        ⟨utf8 "GET", utf8 "/models", [], false, []⟩ ∧
    ServeHTTP setupRoutes (worldAnswering ⟨200, [], []⟩) [] .fresh
        ⟨utf8 "DELETE", utf8 "/models", [], false, []⟩
      = ({ header := [], wroteHeader := true, status := 405, sent := [], body := [] }, []) ∧
    (ServeHTTP setupRoutes (worldAnswering ⟨200, [], []⟩) [] .fresh
        ⟨utf8 "GET", utf8 "/nothing", [], false, []⟩).1.status = 404 ∧
    ServeHTTP setupRoutes (worldAnswering ⟨200, [], []⟩) [] .fresh
        ⟨utf8 "GET", utf8 "//a b", utf8 "x=1", false, []⟩
      = ({ header := [(utf8 "Location", utf8 "/a%20b?x=1")], wroteHeader := true,
           status := 301, sent := [(utf8 "Location", utf8 "/a%20b?x=1")], body := [] }, []) :=
  ⟨(setupRoutes_dispatch (worldAnswering ⟨200, [], []⟩) []
      ⟨utf8 "POST", utf8 "/generate", [], false, utf8 "\x7b\x7d"⟩).1 rfl rfl,
   (setupRoutes_dispatch (worldAnswering ⟨200, [], []⟩) []
      ⟨utf8 "GET", utf8 "/models", [], false, []⟩).2.1 rfl rfl,
   ((setupRoutes_dispatch (worldAnswering ⟨200, [], []⟩) []
      ⟨utf8 "DELETE", utf8 "/models", [], false, []⟩).2.2 (by decide) (by decide)).2.1
      (by decide) (Or.inr rfl),
   by
    rw [((setupRoutes_dispatch (worldAnswering ⟨200, [], []⟩) []
      ⟨utf8 "GET", utf8 "/nothing", [], false, []⟩).2.2 (by decide) (by decide)).2.2
      (by decide) (by decide) (by decide)],
   by
    rw [((setupRoutes_dispatch (worldAnswering ⟨200, [], []⟩) []
      ⟨utf8 "GET", utf8 "//a b", utf8 "x=1", false, []⟩).2.2 (by decide) (by decide)).1
      (by decide)]
    decide⟩

/-- C7, counterexample: two `GET /models` requests in a row against an
upstream that closes the idle connection between them.  The first run sends
one GET.  The second run sends two: the transport sends the GET on the pooled
connection, finds it closed, and sends it again on a new one.  So a run of
`handleListModels` does not always issue one GET. -/
theorem stale_connection_resends_get :
    handleListModels (worldClosingIdle (utf8 "\x7b\"models\":[]\x7d")) [] .fresh
        ⟨utf8 "GET", utf8 "/models", [], false, []⟩
      = ({ header := [(utf8 "Content-Type", utf8 "application/json")], wroteHeader := true,
           status := 200, sent := [(utf8 "Content-Type", utf8 "application/json")],
           body := utf8 "\x7b\"models\":[]\x7d" },
         [⟨utf8 "GET", utf8 "http://localhost:11434/api/tags", none⟩]) ∧
    handleListModels (worldClosingIdle (utf8 "\x7b\"models\":[]\x7d"))
        [⟨utf8 "GET", utf8 "http://localhost:11434/api/tags", none⟩] .fresh
        ⟨utf8 "GET", utf8 "/models", [], false, []⟩
      = ({ header := [(utf8 "Content-Type", utf8 "application/json")], wroteHeader := true,
           status := 200, sent := [(utf8 "Content-Type", utf8 "application/json")],
           body := utf8 "\x7b\"models\":[]\x7d" },
         [⟨utf8 "GET", utf8 "http://localhost:11434/api/tags", none⟩,
          ⟨utf8 "GET", utf8 "http://localhost:11434/api/tags", none⟩,
          ⟨utf8 "GET", utf8 "http://localhost:11434/api/tags", none⟩]) := by
  decide

/-- C7, amended: `handleListModels` does not read the request: for any two
requests, in particular two that differ only in their body, the same upstream
behaviour and the same writer give the same upstream requests and the same
response, also when the requests come through the router.  The requests sent
are those of one `client.Get` call to `http://localhost:11434/api/tags`: the
first is a GET of that URL without a body, and it is the only one when the
upstream answers it with a response the client returns, or when the attempt
fails with an error the transport does not retry.  A second run makes its own
call, which starts with a GET of its own. -/
theorem handleListModels_ignores_request (w : World) (log : List Attempt)
    (wr wr2 : ResponseWriter) (r1 r2 : Request) :
    handleListModels w log wr r1 = handleListModels w log wr r2 ∧
    (∀ (query : Bytes) (forceQuery : Bool) (b1 b2 : Bytes),
      ServeHTTP setupRoutes w log wr ⟨utf8 "GET", utf8 "/models", query, forceQuery, b1⟩
        = ServeHTTP setupRoutes w log wr ⟨utf8 "GET", utf8 "/models", query, forceQuery, b2⟩) ∧
    (handleListModels w log wr r1).2 = (Get w log (utf8 "http://localhost:11434/api/tags")).2 ∧
    (∃ more, (handleListModels w log wr r1).2
      = log ++ ⟨utf8 "GET", utf8 "http://localhost:11434/api/tags", none⟩ :: more) ∧
    (∀ resp, w.answer log tagsRequest = .response resp → returned resp = true →
      (handleListModels w log wr r1).2 = log ++ [tagsRequest]) ∧
    (∀ err, w.answer log tagsRequest = .failed err →
      (handleListModels w log wr r1).2 = log ++ [tagsRequest]) ∧
    (∃ more1 more2, (handleListModels w (handleListModels w log wr r1).2 wr2 r2).2
      = log ++ ⟨utf8 "GET", utf8 "http://localhost:11434/api/tags", none⟩ :: more1
          ++ ⟨utf8 "GET", utf8 "http://localhost:11434/api/tags", none⟩ :: more2) := by
  have hcm : cleanPath (utf8 "/models") = utf8 "/models" := by decide
  have hne : utf8 "/models" ≠ utf8 "/generate" := by decide
  refine ⟨rfl, ?_, handleListModels_log w log wr r1, ?_, ?_, ?_, ?_⟩
  · intro query forceQuery b1 b2
    have key : ∀ r : Request, r.Method = utf8 "GET" → r.Path = utf8 "/models" →
        ServeHTTP setupRoutes w log wr r = handleListModels w log wr r := by
      intro r hm hp
      rw [ServeHTTP_setupRoutes, hp, if_neg (not_not.mpr hcm), if_neg hne, if_pos rfl,
        if_pos hm]
    rw [key _ rfl rfl, key _ rfl rfl]
    rfl
  · rw [handleListModels_log]
    exact tagsCall_log w log
  · intro resp ha hr
    rw [handleListModels_log, tagsCall_returned w log resp ha hr]
  · intro err ha
    rw [handleListModels_log, tagsCall_failed w log err ha]
  · obtain ⟨more1, h1⟩ := tagsCall_log w log
    obtain ⟨more2, h2⟩ := tagsCall_log w (tagsCall w log).2
    refine ⟨more1, more2, ?_⟩
    rw [handleListModels_log, handleListModels_log, h2, h1]
    rfl

/-- Witness of C7 (amended): against an upstream that answers 200, a run of
`handleListModels` sends the single GET of the tags endpoint. -/
theorem handleListModels_ignores_request_witness :
    (handleListModels (worldAnswering ⟨200, [], [utf8 "\x7b\"models\":[]\x7d"]⟩) [] .fresh
        ⟨utf8 "GET", utf8 "/models", [], false, utf8 "ignored"⟩).2
      = [] ++ [tagsRequest] :=
  (handleListModels_ignores_request (worldAnswering ⟨200, [], [utf8 "\x7b\"models\":[]\x7d"]⟩)
    [] .fresh .fresh ⟨utf8 "GET", utf8 "/models", [], false, utf8 "ignored"⟩
    ⟨utf8 "GET", utf8 "/models", [], false, []⟩).2.2.2.2.1
    ⟨200, [], [utf8 "\x7b\"models\":[]\x7d"]⟩ rfl (by decide)

/-- C9: serializing the payload map succeeds for every pair of strings, so
`handleGenerate` never replies with status 500 and a body that starts with
`Failed to marshal request: `. -/
theorem marshal_failure_unreachable (w : World) (log : List Attempt) (r : Request)
    (m p : Bytes) :
    (∃ body, Marshal (ollamaReq ⟨m, p⟩) = .ok body) ∧
    ¬ ((handleGenerate w log .fresh r).1.status = 500 ∧
        ∃ e, (handleGenerate w log .fresh r).1.body = utf8 "Failed to marshal request: " ++ e) := by
  refine ⟨⟨_, Marshal_ollamaReq ⟨m, p⟩⟩, ?_⟩
  rintro ⟨hs, e, hb⟩
  rcases handleGenerate_status w log r with ⟨e1, _, h⟩ | ⟨req, err, _, _, h⟩ |
    ⟨req, resp, _, _, h⟩
  · rw [h] at hs
    simp at hs
  · rw [h] at hb
    have h1 : List.take 11 (utf8 "Failed to call Ollama: " ++ err ++ utf8 "\n")
        = utf8 "Failed to c" := rfl
    have h2 : List.take 11 (utf8 "Failed to marshal request: " ++ e) = utf8 "Failed to m" := rfl
    have h3 := congrArg (List.take 11) hb
    simp only [h1, h2] at h3
    revert h3
    decide
  · rw [h] at hs
    simp at hs

/-- C10, counterexample: two upstreams whose every attempt is answered, so
that no transport error occurs.  The first answers the GET of
`handleListModels` with a 307 redirect: the client follows it, and the caller
gets the body of the second response, not the body `first-answer` of the
first.  The second answers every GET with a 302 redirect: the client gives up
after ten requests and the caller gets status 500. -/
theorem redirect_status_is_followed :
    handleListModels (worldRedirecting (utf8 "http://localhost:11434/api/v2/tags")) [] .fresh
        ⟨utf8 "GET", utf8 "/models", [], false, []⟩
      = ({ header := [(utf8 "Content-Type", utf8 "application/json")], wroteHeader := true,
           status := 200, sent := [(utf8 "Content-Type", utf8 "application/json")],
           body := utf8 "second-answer" },
         [⟨utf8 "GET", utf8 "http://localhost:11434/api/tags", none⟩,
          ⟨utf8 "GET", utf8 "http://localhost:11434/api/v2/tags", none⟩]) ∧
    (handleListModels (worldLooping (utf8 "http://localhost:11434/api/tags")) [] .fresh
        ⟨utf8 "GET", utf8 "/models", [], false, []⟩).1
      = { header := [(utf8 "Content-Type", utf8 "text/plain; charset=utf-8"),
                     (utf8 "X-Content-Type-Options", utf8 "nosniff")],
          wroteHeader := true, status := 500,
          sent := [(utf8 "Content-Type", utf8 "text/plain; charset=utf-8"),
                   (utf8 "X-Content-Type-Options", utf8 "nosniff")],
          body := utf8 ("Failed to call Ollama: Get \"http://localhost:11434/api/tags\": "
            ++ "stopped after 10 redirects\n") } ∧
    (handleListModels (worldLooping (utf8 "http://localhost:11434/api/tags")) [] .fresh
        ⟨utf8 "GET", utf8 "/models", [], false, []⟩).2
      = List.replicate 10 ⟨utf8 "GET", utf8 "http://localhost:11434/api/tags", none⟩ := by
  decide!

/-- C10, amended: the status code of the response the client call returns
does not reach the caller.  Whatever the code, such a response is relayed
with status 200 and `Content-Type: application/json`; in particular the
response to the first upstream request is relayed so, whatever its code
(4xx and 5xx included), unless it is a 301, 302, 303, 307 or 308 with a
`Location`, which the client follows.  The caller of either handler sees
status 500 only when the client call returned an error, and the caller of
`handleGenerate` sees 400 exactly when the body failed to decode. -/
theorem upstream_status_code_ignored (w : World) (log : List Attempt) (r : Request) :
    (∀ req code header chunks, Decode r.Body = .ok req →
      (Post w log (utf8 "http://localhost:11434/api/generate") (utf8 "application/json")
        (payload req)).1 = .ok ⟨code, header, chunks⟩ →
      (handleGenerate w log .fresh r).1
        = { header := [(utf8 "Content-Type", utf8 "application/json")], wroteHeader := true,
            status := 200, sent := [(utf8 "Content-Type", utf8 "application/json")],
            body := chunks.flatten }) ∧
    (∀ code header chunks,
      (Get w log (utf8 "http://localhost:11434/api/tags")).1 = .ok ⟨code, header, chunks⟩ →
      (handleListModels w log .fresh r).1
        = { header := [(utf8 "Content-Type", utf8 "application/json")], wroteHeader := true,
            status := 200, sent := [(utf8 "Content-Type", utf8 "application/json")],
            body := chunks.flatten }) ∧
    (∀ req code header chunks, Decode r.Body = .ok req →
      w.answer log (generateRequest req) = .response ⟨code, header, chunks⟩ →
      returned ⟨code, header, chunks⟩ = true →
      handleGenerate w log .fresh r
        = ({ header := [(utf8 "Content-Type", utf8 "application/json")], wroteHeader := true,
             status := 200, sent := [(utf8 "Content-Type", utf8 "application/json")],
             body := chunks.flatten }, log ++ [generateRequest req])) ∧
    (∀ code header chunks, w.answer log tagsRequest = .response ⟨code, header, chunks⟩ →
      returned ⟨code, header, chunks⟩ = true →
      handleListModels w log .fresh r
        = ({ header := [(utf8 "Content-Type", utf8 "application/json")], wroteHeader := true,
             status := 200, sent := [(utf8 "Content-Type", utf8 "application/json")],
             body := chunks.flatten }, log ++ [tagsRequest])) ∧
    (∀ code header chunks, 400 ≤ code →
      returned ⟨code, header, chunks⟩ = true) ∧
    ((handleGenerate w log .fresh r).1.status = 500 →
      ∃ req e, Decode r.Body = .ok req ∧
        (Post w log (utf8 "http://localhost:11434/api/generate") (utf8 "application/json")
          (payload req)).1 = .error e) ∧
    ((handleListModels w log .fresh r).1.status = 500 →
      ∃ e, (Get w log (utf8 "http://localhost:11434/api/tags")).1 = .error e) ∧
    ((handleGenerate w log .fresh r).1.status = 400 ↔ ∃ e, Decode r.Body = .error e) := by
  refine ⟨?_, ?_, ?_, ?_, ?_, ?_, ?_, ?_⟩
  · intro req code header chunks hd hu
    rw [handleGenerate_relayed w log r req _ hd hu]
    rfl
  · intro code header chunks hu
    rw [handleListModels_relayed w log r _ hu]
    rfl
  · intro req code header chunks hd ha hr
    have hc := generateCall_returned w log req _ ha hr
    rw [handleGenerate_relayed w log r req ⟨code, header, chunks⟩ hd (by rw [hc]), hc]
    rfl
  · intro code header chunks ha hr
    have hc := tagsCall_returned w log _ ha hr
    rw [handleListModels_relayed w log r ⟨code, header, chunks⟩ (by rw [hc]), hc]
    rfl
  · intro code header chunks hcode
    have h1 : (code == 301) = false := by rw [beq_eq_false_iff_ne]; omega
    have h2 : (code == 302) = false := by rw [beq_eq_false_iff_ne]; omega
    have h3 : (code == 303) = false := by rw [beq_eq_false_iff_ne]; omega
    have h4 : (code == 307) = false := by rw [beq_eq_false_iff_ne]; omega
    have h5 : (code == 308) = false := by rw [beq_eq_false_iff_ne]; omega
    simp only [returned, h1, h2, h3, h4, h5, Bool.or_self, Bool.not_false, Bool.true_or]
  · intro hs
    rcases handleGenerate_status w log r with ⟨e1, _, h⟩ | ⟨req, err, hd, hu, _⟩ |
      ⟨req, resp, _, _, h⟩
    · rw [h] at hs; simp at hs
    · exact ⟨req, err, hd, hu⟩
    · rw [h] at hs; simp at hs
  · intro hs
    cases hu : (tagsCall w log).1 with
    | error e => exact ⟨e, hu⟩
    | ok resp =>
      rw [handleListModels_relayed w log r resp hu] at hs
      simp at hs
  · rcases handleGenerate_status w log r with ⟨e1, hd, h⟩ | ⟨req, err, hd, _, h⟩ |
      ⟨req, resp, hd, _, h⟩
    · rw [h]; simp [hd]
    · rw [h]; simp [hd]
    · rw [h]; simp [hd]

/-- Witness of C10 (amended): an upstream that answers 503 with the body
`overloaded` is relayed to the caller of either handler with status 200,
after one upstream request. -/
theorem upstream_status_code_ignored_witness :
    handleGenerate (worldAnswering ⟨503, [], [utf8 "overloaded"]⟩) [] .fresh
        ⟨utf8 "POST", utf8 "/generate", [], false,
          utf8 "\x7b\"model\":\"llama2\",\"prompt\":\"hello\"\x7d"⟩
      = ({ header := [(utf8 "Content-Type", utf8 "application/json")], wroteHeader := true,
           status := 200, sent := [(utf8 "Content-Type", utf8 "application/json")],
           body := [utf8 "overloaded"].flatten },
         [] ++ [generateRequest ⟨utf8 "llama2", utf8 "hello"⟩]) ∧
    (handleListModels (worldAnswering ⟨503, [], [utf8 "overloaded"]⟩) [] .fresh
        ⟨utf8 "GET", utf8 "/models", [], false, []⟩).1
      = { header := [(utf8 "Content-Type", utf8 "application/json")], wroteHeader := true,
          status := 200, sent := [(utf8 "Content-Type", utf8 "application/json")],
          body := [utf8 "overloaded"].flatten } :=
  ⟨(upstream_status_code_ignored (worldAnswering ⟨503, [], [utf8 "overloaded"]⟩) []
      ⟨utf8 "POST", utf8 "/generate", [], false,
        utf8 "\x7b\"model\":\"llama2\",\"prompt\":\"hello\"\x7d"⟩).2.2.1
      ⟨utf8 "llama2", utf8 "hello"⟩ 503 [] [utf8 "overloaded"] (by decide) rfl (by decide),
   (upstream_status_code_ignored (worldAnswering ⟨503, [], [utf8 "overloaded"]⟩) []
      ⟨utf8 "GET", utf8 "/models", [], false, []⟩).2.1 503 [] [utf8 "overloaded"] rfl⟩

end OllamaServer
